import Mathlib

/-!
Verification development for the storage core of the conflux-rust repository.

The definitions below are a shallow embedding of the Rust sources:

* `node_ref.rs` — the 64-bit compact node-reference codec;
* `owned_node_set.rs` — the owned-node set of a write session;
* `cow_node_ref.rs` — the copy-on-write node handle and its recursive commit;
* `block_data_manager.rs` — receipts storage keyed by (block hash, epoch);
* `light_protocol/handler/sync/{blooms,receipts}.rs` — light-sync validation.

Machine integers (`u32`, `u64`) are modelled as `Nat` with explicit `% 2 ^ 32`
where the Rust code performs an `as u32` cast; bitwise operators map to the
`Nat` bitwise operators.  Fallible Rust functions return `Except`.
-/

set_option maxHeartbeats 1000000

namespace ConfluxStorage

/-! ## Bit-level toolkit

General facts about `Nat` bitwise operations used to reason about the
compact node-reference encoding. -/

theorem and_two_pow_ne_zero_iff (x n : Nat) :
    x &&& 2 ^ n ≠ 0 ↔ x.testBit n = true := by
  constructor
  · intro h
    obtain ⟨i, hi⟩ := Nat.ne_zero_implies_bit_true h
    rw [Nat.testBit_and] at hi
    obtain ⟨hx, hp⟩ := Bool.and_eq_true_iff.mp hi
    rw [Nat.testBit_two_pow] at hp
    have hni : n = i := of_decide_eq_true hp
    rwa [hni]
  · intro h hz
    have hbit : (x &&& 2 ^ n).testBit n = true := by
      rw [Nat.testBit_and, h, Nat.testBit_two_pow_self]
      rfl
    rw [hz, Nat.zero_testBit] at hbit
    exact Bool.noConfusion hbit

theorem xor_two_pow_of_lt {x n : Nat} (h : x < 2 ^ n) :
    x ^^^ 2 ^ n = 2 ^ n + x := by
  apply Nat.eq_of_testBit_eq
  intro i
  rw [Nat.testBit_xor, show (2 : Nat) ^ n + x = 2 ^ n * 1 + x by omega,
    Nat.testBit_mul_pow_two_add 1 h i]
  rcases Nat.lt_trichotomy i n with hlt | heq | hgt
  · simp [Nat.testBit_two_pow_of_ne (Nat.ne_of_gt hlt), hlt]
  · subst heq
    simp [Nat.testBit_two_pow_self, Nat.testBit_lt_two_pow h]
  · have h1 : x.testBit i = false :=
      Nat.testBit_lt_two_pow (lt_of_lt_of_le h (Nat.pow_le_pow_right (by omega) (le_of_lt hgt)))
    have h2 : Nat.testBit 1 (i - n) = false := by
      rw [Nat.testBit_to_div_mod]
      have : (1 : Nat) / 2 ^ (i - n) = 0 := by
        apply Nat.div_eq_of_lt
        have : 0 < i - n := by omega
        calc (1 : Nat) < 2 ^ 1 := by omega
        _ ≤ 2 ^ (i - n) := Nat.pow_le_pow_right (by omega) (by omega)
      simp [this]
    simp [Nat.testBit_two_pow_of_ne (by omega : n ≠ i), h1, Nat.not_lt.mpr (le_of_lt hgt), h2]

theorem xor_two_pow_sub_one_of_lt {x n : Nat} (h : x < 2 ^ n) :
    x ^^^ (2 ^ n - 1) = 2 ^ n - 1 - x := by
  apply Nat.eq_of_testBit_eq
  intro i
  rw [Nat.testBit_xor, Nat.testBit_two_pow_sub_one,
    show (2 : Nat) ^ n - 1 - x = 2 ^ n - (x + 1) by omega,
    Nat.testBit_two_pow_sub_succ h i]
  by_cases hi : i < n
  · simp [hi]
  · have h1 : x.testBit i = false :=
      Nat.testBit_lt_two_pow (lt_of_lt_of_le h (Nat.pow_le_pow_right (by omega) (by omega)))
    simp [hi, h1]

theorem or_of_mul_add {s m : Nat} (hm : m < 2 ^ 32) :
    (s <<< 32) ||| m = 2 ^ 32 * s + m := by
  rw [Nat.shiftLeft_eq, Nat.mul_comm s (2 ^ 32)]
  exact (Nat.mul_add_lt_is_or hm s).symm

/-! ## Node reference codec (`node_ref.rs`) -/

/-- Source: `NodeRefDeltaMptCompact::DIRTY_SLOT_LIMIT`. -/
def DIRTY_SLOT_LIMIT : Nat := 0x7fffffffffffffff

/-- Source: `NodeRefDeltaMptCompact::PERSISTENT_KEY_BIT`. -/
def PERSISTENT_KEY_BIT : Nat := 0x8000000000000000

/-- Source: `NodeRefDeltaMptCompact` — one 64-bit word (`value: u64`). -/
structure NodeRefDeltaMptCompact where
  value : Nat
deriving DecidableEq, Repr

/-- Source: `NodeRefDeltaMptCompact::is_committed`. -/
def NodeRefDeltaMptCompact.is_committed (x : NodeRefDeltaMptCompact) : Bool :=
  (x.value &&& PERSISTENT_KEY_BIT) != 0

/-- Source: `NodeRefDeltaMptCompact::is_dirty`. -/
def NodeRefDeltaMptCompact.is_dirty (x : NodeRefDeltaMptCompact) : Bool :=
  !x.is_committed

/-- Source: `NodeRefDeltaMpt` — the unpacked node reference.
`db_key`, `index` and the original db key are `u32` in the source. -/
inductive NodeRefDeltaMpt where
  | Committed (db_key : Nat)
  | Dirty (index : Nat) (original_db_key : Option Nat)
deriving DecidableEq, Repr

/-- Source: `NodeRefDeltaMpt::original_db_key`. -/
def NodeRefDeltaMpt.original_db_key : NodeRefDeltaMpt → Option Nat
  | .Committed _ => none
  | .Dirty _ original_db_key => original_db_key

/-- Source: `NodeRefDeltaMpt::is_dirty`. -/
def NodeRefDeltaMpt.is_dirty : NodeRefDeltaMpt → Bool
  | .Committed _ => false
  | .Dirty _ _ => true

/-- Source: the local `from_maybe_u32` in `impl From<NodeRefDeltaMpt>`. -/
def from_maybe_u32 : Option Nat → Nat
  | some x => x
  | none => 0xffffffff

/-- Source: the local `to_maybe_u32` in `impl From<NodeRefDeltaMptCompact>`. -/
def to_maybe_u32 (x : Nat) : Option Nat :=
  if x == 0xffffffff then none else some x

/-- Source: `impl From<NodeRefDeltaMpt> for NodeRefDeltaMptCompact`. -/
def NodeRefDeltaMpt.toCompact : NodeRefDeltaMpt → NodeRefDeltaMptCompact
  | .Committed db_key => ⟨(db_key <<< 32) ^^^ PERSISTENT_KEY_BIT⟩
  | .Dirty index original_db_key =>
      ⟨((index <<< 32) ||| from_maybe_u32 original_db_key) ^^^ DIRTY_SLOT_LIMIT⟩

/-- Source: `impl From<NodeRefDeltaMptCompact> for NodeRefDeltaMpt`.
The `as u32` casts are modelled by `% 2 ^ 32`. -/
def NodeRefDeltaMptCompact.toNodeRef (x : NodeRefDeltaMptCompact) : NodeRefDeltaMpt :=
  if x.is_dirty then
    .Dirty (((DIRTY_SLOT_LIMIT ^^^ x.value) >>> 32) % 2 ^ 32)
      (to_maybe_u32 ((DIRTY_SLOT_LIMIT ^^^ x.value) % 2 ^ 32))
  else
    .Committed (((PERSISTENT_KEY_BIT ^^^ x.value) >>> 32) % 2 ^ 32)

/-- Source: `impl Encodable for NodeRefDeltaMptCompact` — the `u32` that is
RLP-appended is `(self.value >> 32) as u32`. -/
def NodeRefDeltaMptCompact.wire_u32 (x : NodeRefDeltaMptCompact) : Nat :=
  (x.value >>> 32) % 2 ^ 32

/-- Source: `impl Decodable for NodeRefDeltaMptCompact` — the decoded compact
value is the wire `u32` shifted into the high half, low 32 bits zero. -/
def decode_wire (val : Nat) : NodeRefDeltaMptCompact :=
  ⟨val <<< 32⟩

/-- Big-endian minimal byte string of a natural number (empty for zero),
as produced by the rlp crate for unsigned integers. -/
def beBytesMinimal : Nat → List Nat
  | 0 => []
  | v + 1 => beBytesMinimal ((v + 1) / 256) ++ [(v + 1) % 256]
decreasing_by exact Nat.div_lt_self (Nat.succ_pos v) (by omega)

/-- RLP encoding of an unsigned integer as done by `rlp::RlpStream::append_internal`
for `u32`: single byte below 0x80, otherwise a length prefix `0x80 + len`
followed by the minimal big-endian bytes; zero encodes as the empty string. -/
def rlpEncodeUint (v : Nat) : List Nat :=
  if v = 0 then [0x80]
  else if v < 0x80 then [v]
  else (0x80 + (beBytesMinimal v).length) :: beBytesMinimal v

/-- The 4-byte big-endian form of a `u32`. -/
def beBytes4 (v : Nat) : List Nat :=
  [v / 2 ^ 24 % 256, v / 2 ^ 16 % 256, v / 2 ^ 8 % 256, v % 256]

/-! ### Closed arithmetic forms of the codec -/

theorem toCompact_committed_value {k : Nat} (hk : k < 2 ^ 31) :
    (NodeRefDeltaMpt.Committed k).toCompact.value = 2 ^ 63 + k * 2 ^ 32 := by
  show (k <<< 32) ^^^ PERSISTENT_KEY_BIT = 2 ^ 63 + k * 2 ^ 32
  rw [Nat.shiftLeft_eq, show PERSISTENT_KEY_BIT = 2 ^ 63 by decide]
  rw [xor_two_pow_of_lt (show k * 2 ^ 32 < 2 ^ 63 by omega)]

theorem toCompact_committed_value_high {k : Nat} (hk1 : 2 ^ 31 ≤ k) (hk2 : k < 2 ^ 32) :
    (NodeRefDeltaMpt.Committed k).toCompact.value = (k - 2 ^ 31) * 2 ^ 32 := by
  show (k <<< 32) ^^^ PERSISTENT_KEY_BIT = (k - 2 ^ 31) * 2 ^ 32
  rw [Nat.shiftLeft_eq, show PERSISTENT_KEY_BIT = 2 ^ 63 by decide]
  have hy : (k - 2 ^ 31) * 2 ^ 32 < 2 ^ 63 := by omega
  have hsplit : k * 2 ^ 32 = 2 ^ 63 + (k - 2 ^ 31) * 2 ^ 32 := by omega
  rw [hsplit, ← xor_two_pow_of_lt hy, Nat.xor_assoc, Nat.xor_self, Nat.xor_zero]

theorem toCompact_dirty_value {s : Nat} (o : Option Nat) (hs : s < 2 ^ 31)
    (ho : from_maybe_u32 o < 2 ^ 32) :
    (NodeRefDeltaMpt.Dirty s o).toCompact.value
      = (2 ^ 31 - 1 - s) * 2 ^ 32 + (2 ^ 32 - 1 - from_maybe_u32 o) := by
  show ((s <<< 32) ||| from_maybe_u32 o) ^^^ DIRTY_SLOT_LIMIT = _
  rw [or_of_mul_add ho, show DIRTY_SLOT_LIMIT = 2 ^ 63 - 1 by decide]
  rw [xor_two_pow_sub_one_of_lt (show 2 ^ 32 * s + from_maybe_u32 o < 2 ^ 63 by omega)]
  omega

theorem toCompact_dirty_value_high {s : Nat} (o : Option Nat) (hs1 : 2 ^ 31 ≤ s)
    (hs2 : s < 2 ^ 32) (ho : from_maybe_u32 o < 2 ^ 32) :
    (NodeRefDeltaMpt.Dirty s o).toCompact.value
      = 2 ^ 64 - 1 - (2 ^ 32 * (s - 2 ^ 31) + from_maybe_u32 o) := by
  show ((s <<< 32) ||| from_maybe_u32 o) ^^^ DIRTY_SLOT_LIMIT = _
  rw [or_of_mul_add ho, show DIRTY_SLOT_LIMIT = 2 ^ 63 - 1 by decide]
  have hy : 2 ^ 32 * (s - 2 ^ 31) + from_maybe_u32 o < 2 ^ 63 := by omega
  have hsplit : 2 ^ 32 * s + from_maybe_u32 o
      = 2 ^ 63 + (2 ^ 32 * (s - 2 ^ 31) + from_maybe_u32 o) := by omega
  rw [hsplit, ← xor_two_pow_of_lt hy, Nat.xor_assoc]
  rw [show (2:Nat) ^ 63 ^^^ (2 ^ 63 - 1) = 2 ^ 64 - 1 by decide]
  rw [xor_two_pow_sub_one_of_lt (show _ < 2 ^ 64 by omega)]

theorem is_committed_of_div (v : Nat) (h : v / 2 ^ 63 % 2 = 1) :
    (NodeRefDeltaMptCompact.mk v).is_committed = true := by
  have hbit : v.testBit 63 = true := by
    rw [Nat.testBit_to_div_mod]
    exact decide_eq_true h
  show ((v &&& PERSISTENT_KEY_BIT) != 0) = true
  rw [show PERSISTENT_KEY_BIT = 2 ^ 63 by decide]
  simpa using (and_two_pow_ne_zero_iff v 63).mpr hbit

theorem not_committed_of_lt (v : Nat) (h : v < 2 ^ 63) :
    (NodeRefDeltaMptCompact.mk v).is_committed = false := by
  have hbit : v.testBit 63 = false := Nat.testBit_lt_two_pow h
  show ((v &&& PERSISTENT_KEY_BIT) != 0) = false
  have hz : v &&& PERSISTENT_KEY_BIT = 0 := by
    rw [show PERSISTENT_KEY_BIT = 2 ^ 63 by decide]
    by_contra hne
    rw [(and_two_pow_ne_zero_iff v 63).mp hne] at hbit
    exact Bool.noConfusion hbit
  rw [hz]
  rfl

/-- Decoding the compact form of a committed ref with db key below `2 ^ 31`
recovers the ref. -/
theorem toNodeRef_toCompact_committed {k : Nat} (hk : k < 2 ^ 31) :
    (NodeRefDeltaMpt.Committed k).toCompact.toNodeRef = .Committed k := by
  have hval := toCompact_committed_value hk
  have hcom : (NodeRefDeltaMpt.Committed k).toCompact.is_committed = true := by
    have : (NodeRefDeltaMpt.Committed k).toCompact
        = NodeRefDeltaMptCompact.mk (2 ^ 63 + k * 2 ^ 32) := by
      cases h : (NodeRefDeltaMpt.Committed k).toCompact with
      | mk v => simpa [h] using hval
    rw [this]
    apply is_committed_of_div
    have : (2 ^ 63 + k * 2 ^ 32) / 2 ^ 63 = 1 := by
      have : k * 2 ^ 32 < 2 ^ 63 := by omega
      omega
    omega
  unfold NodeRefDeltaMptCompact.toNodeRef
  rw [NodeRefDeltaMptCompact.is_dirty, hcom]
  simp only [Bool.not_true, Bool.false_eq_true, if_false]
  congr 1
  rw [hval, show PERSISTENT_KEY_BIT = 2 ^ 63 by decide]
  have hlt : k * 2 ^ 32 < 2 ^ 63 := by omega
  rw [show (2:Nat) ^ 63 + k * 2 ^ 32 = (k * 2 ^ 32) ^^^ 2 ^ 63 from (xor_two_pow_of_lt hlt).symm]
  rw [Nat.xor_comm (k * 2 ^ 32) (2 ^ 63), Nat.xor_cancel_left]
  rw [Nat.shiftRight_eq_div_pow]
  have : k * 2 ^ 32 / 2 ^ 32 = k := by
    rw [Nat.mul_div_cancel]
    omega
  rw [this]
  omega

/-- Decoding the compact form of a dirty ref with slot below `2 ^ 31`
recovers the slot, and the original key goes through `to_maybe_u32`. -/
theorem toNodeRef_toCompact_dirty {s : Nat} (o : Option Nat) (hs : s < 2 ^ 31)
    (ho : from_maybe_u32 o < 2 ^ 32) :
    (NodeRefDeltaMpt.Dirty s o).toCompact.toNodeRef
      = .Dirty s (to_maybe_u32 (from_maybe_u32 o)) := by
  have hval := toCompact_dirty_value o hs ho
  have hvlt : (NodeRefDeltaMpt.Dirty s o).toCompact.value < 2 ^ 63 := by
    rw [hval]
    have := Nat.mul_le_mul_right (2 ^ 32) (show 2 ^ 31 - 1 - s ≤ 2 ^ 31 - 1 by omega)
    omega
  have hcom : (NodeRefDeltaMpt.Dirty s o).toCompact.is_committed = false := by
    cases h : (NodeRefDeltaMpt.Dirty s o).toCompact with
    | mk v =>
      apply not_committed_of_lt
      rw [h] at hvlt
      exact hvlt
  unfold NodeRefDeltaMptCompact.toNodeRef
  rw [NodeRefDeltaMptCompact.is_dirty, hcom]
  simp only [Bool.not_false, if_true]
  have hxor : DIRTY_SLOT_LIMIT ^^^ (NodeRefDeltaMpt.Dirty s o).toCompact.value
      = 2 ^ 32 * s + from_maybe_u32 o := by
    rw [show DIRTY_SLOT_LIMIT = 2 ^ 63 - 1 by decide, Nat.xor_comm,
      xor_two_pow_sub_one_of_lt hvlt, hval]
    omega
  rw [hxor, Nat.shiftRight_eq_div_pow]
  have hdiv : (2 ^ 32 * s + from_maybe_u32 o) / 2 ^ 32 = s := by omega
  have hmod : (2 ^ 32 * s + from_maybe_u32 o) % 2 ^ 32 = from_maybe_u32 o := by omega
  rw [hdiv, hmod]
  congr 1
  omega

theorem beBytesMinimal_pos {v : Nat} (h : 0 < v) :
    beBytesMinimal v = beBytesMinimal (v / 256) ++ [v % 256] := by
  match v, h with
  | w + 1, _ => rw [beBytesMinimal]

theorem beBytesMinimal_four {v : Nat} (h1 : 2 ^ 24 ≤ v) (h2 : v < 2 ^ 32) :
    beBytesMinimal v = beBytes4 v := by
  rw [beBytesMinimal_pos (show 0 < v by omega),
    beBytesMinimal_pos (show 0 < v / 256 by omega),
    beBytesMinimal_pos (show 0 < v / 256 / 256 by omega),
    beBytesMinimal_pos (show 0 < v / 256 / 256 / 256 by omega),
    show v / 256 / 256 / 256 / 256 = 0 by omega,
    show beBytesMinimal 0 = [] by rw [beBytesMinimal]]
  show [v / 256 / 256 / 256 % 256, v / 256 / 256 % 256, v / 256 % 256, v % 256]
      = beBytes4 v
  simp only [beBytes4, List.cons.injEq, and_true]
  omega

/-- Claim C1 (amended): in the committed compact form with db key `k < 2 ^ 31`
the high bit is set, the 31 bits below the high bit hold `k`, and the lower
32 bits are zero; in the dirty compact form with slot `s < 2 ^ 31` the high
bit is clear, the 31 bits below the high bit hold the bitwise complement of
`s`, and the lower 32 bits hold the bitwise complement of the original db
key, which is zero (the complement of the sentinel `0xffffffff`) when the
node is brand-new. -/
theorem compact_bit_layout (k s o : Nat)
    (hk : k < 2 ^ 31) (hs : s < 2 ^ 31) (ho : o < 2 ^ 32) :
    ((NodeRefDeltaMpt.Committed k).toCompact.value / 2 ^ 63 = 1
      ∧ (NodeRefDeltaMpt.Committed k).toCompact.value / 2 ^ 32 % 2 ^ 31 = k
      ∧ (NodeRefDeltaMpt.Committed k).toCompact.value % 2 ^ 32 = 0)
    ∧ ((NodeRefDeltaMpt.Dirty s (some o)).toCompact.value / 2 ^ 63 = 0
      ∧ (NodeRefDeltaMpt.Dirty s (some o)).toCompact.value / 2 ^ 32 % 2 ^ 31
          = s ^^^ (2 ^ 31 - 1)
      ∧ (NodeRefDeltaMpt.Dirty s (some o)).toCompact.value % 2 ^ 32
          = o ^^^ (2 ^ 32 - 1))
    ∧ ((NodeRefDeltaMpt.Dirty s none).toCompact.value / 2 ^ 63 = 0
      ∧ (NodeRefDeltaMpt.Dirty s none).toCompact.value / 2 ^ 32 % 2 ^ 31
          = s ^^^ (2 ^ 31 - 1)
      ∧ (NodeRefDeltaMpt.Dirty s none).toCompact.value % 2 ^ 32 = 0) := by
  have hcv := toCompact_committed_value hk
  have hdv := toCompact_dirty_value (some o) hs (by simpa [from_maybe_u32] using ho)
  have hnv := toCompact_dirty_value none hs (by simp [from_maybe_u32])
  simp only [from_maybe_u32] at hdv hnv
  rw [xor_two_pow_sub_one_of_lt hs, xor_two_pow_sub_one_of_lt ho]
  refine ⟨⟨?_, ?_, ?_⟩, ⟨?_, ?_, ?_⟩, ⟨?_, ?_, ?_⟩⟩ <;> omega

/-- Claim C1 counterexample: the layout stated in the specification fails on
the code.  For the committed ref with db key 1 the lower 32 bits are zero, not
1 (the key sits in the upper half); for the dirty ref with slot 1 and no
original key the upper 31 bits hold the complement of the slot, not the slot,
and the lower 32 bits are zero, not the sentinel `0xffffffff`. -/
theorem compact_bit_layout_cex :
    (NodeRefDeltaMpt.Committed 1).toCompact.value % 2 ^ 32 ≠ 1
    ∧ (NodeRefDeltaMpt.Dirty 1 none).toCompact.value / 2 ^ 32 % 2 ^ 31 ≠ 1
    ∧ (NodeRefDeltaMpt.Dirty 1 none).toCompact.value % 2 ^ 32 ≠ 0xffffffff := by
  refine ⟨?_, ?_, ?_⟩ <;> decide

/-- Claim C1 witness: the amended layout evaluated at db key 3, slot 5,
original key 9. -/
theorem compact_bit_layout_witness :
    ((NodeRefDeltaMpt.Committed 3).toCompact.value / 2 ^ 63 = 1
      ∧ (NodeRefDeltaMpt.Committed 3).toCompact.value / 2 ^ 32 % 2 ^ 31 = 3
      ∧ (NodeRefDeltaMpt.Committed 3).toCompact.value % 2 ^ 32 = 0)
    ∧ ((NodeRefDeltaMpt.Dirty 5 (some 9)).toCompact.value / 2 ^ 63 = 0
      ∧ (NodeRefDeltaMpt.Dirty 5 (some 9)).toCompact.value / 2 ^ 32 % 2 ^ 31
          = 5 ^^^ (2 ^ 31 - 1)
      ∧ (NodeRefDeltaMpt.Dirty 5 (some 9)).toCompact.value % 2 ^ 32
          = 9 ^^^ (2 ^ 32 - 1))
    ∧ ((NodeRefDeltaMpt.Dirty 5 none).toCompact.value / 2 ^ 63 = 0
      ∧ (NodeRefDeltaMpt.Dirty 5 none).toCompact.value / 2 ^ 32 % 2 ^ 31
          = 5 ^^^ (2 ^ 31 - 1)
      ∧ (NodeRefDeltaMpt.Dirty 5 none).toCompact.value % 2 ^ 32 = 0) :=
  compact_bit_layout 3 5 9 (by decide) (by decide) (by decide)

/-- Claim C9: converting a `NodeRefDeltaMpt` to its compact form and back is
the identity exactly when, for a committed ref, the db key is below `2 ^ 31`,
and for a dirty ref the slot is below `2 ^ 31` and the original db key is not
`some 0xffffffff`.  A committed ref whose db key has the top bit set decodes
as a dirty ref; a dirty ref with original key `some 0xffffffff` decodes with
original key `none`. -/
theorem compact_roundtrip_id :
    (∀ k, k < 2 ^ 32 →
      ((NodeRefDeltaMpt.Committed k).toCompact.toNodeRef = .Committed k
        ↔ k < 2 ^ 31))
    ∧ (∀ s o, s < 2 ^ 32 → from_maybe_u32 o < 2 ^ 32 →
      ((NodeRefDeltaMpt.Dirty s o).toCompact.toNodeRef = .Dirty s o
        ↔ s < 2 ^ 31 ∧ o ≠ some 0xffffffff))
    ∧ (∀ k, 2 ^ 31 ≤ k → k < 2 ^ 32 →
      (NodeRefDeltaMpt.Committed k).toCompact.toNodeRef.is_dirty = true)
    ∧ (∀ s, s < 2 ^ 31 →
      (NodeRefDeltaMpt.Dirty s (some 0xffffffff)).toCompact.toNodeRef
        = .Dirty s none) := by
  have committed_high : ∀ k, 2 ^ 31 ≤ k → k < 2 ^ 32 →
      (NodeRefDeltaMpt.Committed k).toCompact.toNodeRef.is_dirty = true := by
    intro k hk1 hk2
    have hval := toCompact_committed_value_high hk1 hk2
    have hcom : (NodeRefDeltaMpt.Committed k).toCompact.is_committed = false := by
      cases h : (NodeRefDeltaMpt.Committed k).toCompact with
      | mk v =>
        apply not_committed_of_lt
        have : v = (k - 2 ^ 31) * 2 ^ 32 := by rw [← hval, h]
        omega
    unfold NodeRefDeltaMptCompact.toNodeRef
    rw [NodeRefDeltaMptCompact.is_dirty, hcom]
    simp [NodeRefDeltaMpt.is_dirty]
  have dirty_high : ∀ s o, 2 ^ 31 ≤ s → s < 2 ^ 32 → from_maybe_u32 o < 2 ^ 32 →
      (NodeRefDeltaMpt.Dirty s o).toCompact.toNodeRef.is_dirty = false := by
    intro s o hs1 hs2 ho
    have hval := toCompact_dirty_value_high o hs1 hs2 ho
    have hcom : (NodeRefDeltaMpt.Dirty s o).toCompact.is_committed = true := by
      cases h : (NodeRefDeltaMpt.Dirty s o).toCompact with
      | mk v =>
        apply is_committed_of_div
        have hy : 2 ^ 32 * (s - 2 ^ 31) + from_maybe_u32 o < 2 ^ 63 := by omega
        have : v = 2 ^ 64 - 1 - (2 ^ 32 * (s - 2 ^ 31) + from_maybe_u32 o) := by
          rw [← hval, h]
        omega
    unfold NodeRefDeltaMptCompact.toNodeRef
    rw [NodeRefDeltaMptCompact.is_dirty, hcom]
    simp [NodeRefDeltaMpt.is_dirty]
  refine ⟨?_, ?_, committed_high, ?_⟩
  · intro k hk
    constructor
    · intro hid
      by_contra hge
      have hd := committed_high k (by omega) hk
      rw [hid] at hd
      simp [NodeRefDeltaMpt.is_dirty] at hd
    · intro hlt
      exact toNodeRef_toCompact_committed hlt
  · intro s o hs ho
    constructor
    · intro hid
      constructor
      · by_contra hge
        have hd := dirty_high s o (by omega) hs ho
        rw [hid] at hd
        simp [NodeRefDeltaMpt.is_dirty] at hd
      · intro hsent
        subst hsent
        by_cases hs31 : s < 2 ^ 31
        · rw [toNodeRef_toCompact_dirty (some 0xffffffff) hs31 ho] at hid
          simp [to_maybe_u32, from_maybe_u32] at hid
        · have hd := dirty_high s (some 0xffffffff) (by omega) hs ho
          rw [hid] at hd
          simp [NodeRefDeltaMpt.is_dirty] at hd
    · rintro ⟨hs31, hsent⟩
      rw [toNodeRef_toCompact_dirty o hs31 ho]
      congr 1
      match o with
      | none => simp [from_maybe_u32, to_maybe_u32]
      | some t =>
        have ht : t ≠ 0xffffffff := fun h => hsent (by rw [h])
        simp [from_maybe_u32, to_maybe_u32, ht]
  · intro s hs
    rw [toNodeRef_toCompact_dirty (some 0xffffffff) hs (by simp [from_maybe_u32])]
    simp [from_maybe_u32, to_maybe_u32]

/-- Claim C9 witness: the round-trip characterization evaluated at db key 5,
at slot 3 with original key 7, at db key `2 ^ 31 + 1`, and at slot 3 with the
sentinel original key. -/
theorem compact_roundtrip_id_witness :
    (NodeRefDeltaMpt.Committed 5).toCompact.toNodeRef = .Committed 5
    ∧ (NodeRefDeltaMpt.Dirty 3 (some 7)).toCompact.toNodeRef = .Dirty 3 (some 7)
    ∧ (NodeRefDeltaMpt.Committed (2 ^ 31 + 1)).toCompact.toNodeRef.is_dirty = true
    ∧ (NodeRefDeltaMpt.Dirty 3 (some 0xffffffff)).toCompact.toNodeRef
        = .Dirty 3 none :=
  ⟨(compact_roundtrip_id.1 5 (by decide)).mpr (by decide),
    (compact_roundtrip_id.2.1 3 (some 7) (by decide) (by decide)).mpr
      (by refine ⟨by decide, ?_⟩; intro h; exact Option.noConfusion h (fun h => by omega)),
    compact_roundtrip_id.2.2.1 (2 ^ 31 + 1) (by decide) (by decide),
    compact_roundtrip_id.2.2.2 3 (by decide)⟩


theorem compact_value_ext {x y : NodeRefDeltaMptCompact} (h : x.value = y.value) :
    x = y := by
  cases x
  cases y
  simpa using h

theorem decode_wire_value (val : Nat) : (decode_wire val).value = val * 2 ^ 32 := by
  show val <<< 32 = val * 2 ^ 32
  rw [Nat.shiftLeft_eq]

/-- Claim C6 counterexample: for the committed ref with db key 5 the wire
`u32` is not the db key itself (it carries the persistent-marker bit), and
its RLP byte string is not the plain 4-byte big-endian db key. -/
theorem wire_form_cex :
    (NodeRefDeltaMpt.Committed 5).toCompact.wire_u32 ≠ 5
    ∧ rlpEncodeUint (NodeRefDeltaMpt.Committed 5).toCompact.wire_u32
        ≠ beBytes4 5 := by
  have hw : (NodeRefDeltaMpt.Committed 5).toCompact.wire_u32 = 0x80000005 := by
    decide
  constructor
  · rw [hw]
    decide
  · rw [hw, rlpEncodeUint, if_neg (by omega), if_neg (by omega),
      beBytesMinimal_four (by omega) (by omega)]
    intro h
    have hlen := congrArg List.length h
    simp [beBytes4] at hlen

/-- Claim C6 (amended): the RLP wire form of a compact node-ref consists of
exactly the top 32 bits of the 64-bit word; for a committed ref with db key
`k < 2 ^ 31` this is `k` with the persistent-marker high bit set
(`2 ^ 31 + k`), RLP-encoded as `0x84` followed by its 4 big-endian bytes.
Decoding any wire `u32` yields a compact value whose bottom 32 bits are zero
and which converts to a node ref without an original key; decoding the wire
form of a committed ref with `k < 2 ^ 31` yields that committed ref back, and
`decode (encode r) = r` holds at the compact level for every committed ref. -/
theorem wire_form_spec :
    (∀ x : NodeRefDeltaMptCompact, x.value < 2 ^ 64 → x.wire_u32 = x.value / 2 ^ 32)
    ∧ (∀ k, k < 2 ^ 31 →
      (NodeRefDeltaMpt.Committed k).toCompact.wire_u32 = 2 ^ 31 + k
      ∧ rlpEncodeUint (NodeRefDeltaMpt.Committed k).toCompact.wire_u32
          = 0x84 :: beBytes4 (2 ^ 31 + k))
    ∧ (∀ val, (decode_wire val).value % 2 ^ 32 = 0)
    ∧ (∀ val, val < 2 ^ 32 →
      (decode_wire val).toNodeRef.original_db_key = none)
    ∧ (∀ k, k < 2 ^ 31 →
      (decode_wire (NodeRefDeltaMpt.Committed k).toCompact.wire_u32).toNodeRef
        = .Committed k)
    ∧ (∀ k, k < 2 ^ 32 →
      decode_wire (NodeRefDeltaMpt.Committed k).toCompact.wire_u32
        = (NodeRefDeltaMpt.Committed k).toCompact) := by
  have wire_low : ∀ k, k < 2 ^ 31 →
      (NodeRefDeltaMpt.Committed k).toCompact.wire_u32 = 2 ^ 31 + k := by
    intro k hk
    show ((NodeRefDeltaMpt.Committed k).toCompact.value >>> 32) % 2 ^ 32 = 2 ^ 31 + k
    rw [toCompact_committed_value hk, Nat.shiftRight_eq_div_pow]
    omega
  have decode_eq : ∀ k, k < 2 ^ 31 →
      decode_wire (NodeRefDeltaMpt.Committed k).toCompact.wire_u32
        = (NodeRefDeltaMpt.Committed k).toCompact := by
    intro k hk
    apply compact_value_ext
    rw [decode_wire_value, wire_low k hk, toCompact_committed_value hk]
    omega
  refine ⟨?_, ?_, ?_, ?_, ?_, ?_⟩
  · intro x hx
    show (x.value >>> 32) % 2 ^ 32 = x.value / 2 ^ 32
    rw [Nat.shiftRight_eq_div_pow]
    omega
  · intro k hk
    refine ⟨wire_low k hk, ?_⟩
    rw [wire_low k hk]
    rw [rlpEncodeUint, if_neg (by omega), if_neg (by omega),
      beBytesMinimal_four (by omega) (by omega)]
    have hlen : (beBytes4 (2 ^ 31 + k)).length = 4 := by rfl
    rw [hlen]
  · intro val
    rw [decode_wire_value]
    omega
  · intro val hval
    by_cases h31 : val < 2 ^ 31
    · have hlt : val * 2 ^ 32 < 2 ^ 63 := by omega
      have hcom : (decode_wire val).is_committed = false := by
        have := not_committed_of_lt (val * 2 ^ 32) hlt
        have he : decode_wire val = NodeRefDeltaMptCompact.mk (val * 2 ^ 32) :=
          compact_value_ext (decode_wire_value val)
        rw [he]
        exact this
      unfold NodeRefDeltaMptCompact.toNodeRef
      rw [NodeRefDeltaMptCompact.is_dirty, hcom]
      simp only [Bool.not_false, if_true, NodeRefDeltaMpt.original_db_key]
      have hx : DIRTY_SLOT_LIMIT ^^^ (decode_wire val).value
          = 2 ^ 63 - 1 - val * 2 ^ 32 := by
        rw [decode_wire_value, show DIRTY_SLOT_LIMIT = 2 ^ 63 - 1 by decide,
          Nat.xor_comm, xor_two_pow_sub_one_of_lt hlt]
      rw [hx]
      have hm : (2 ^ 63 - 1 - val * 2 ^ 32) % 2 ^ 32 = 2 ^ 32 - 1 := by omega
      rw [hm]
      simp [to_maybe_u32]
    · have hge : val * 2 ^ 32 = 2 ^ 63 + (val - 2 ^ 31) * 2 ^ 32 := by omega
      have hcom : (decode_wire val).is_committed = true := by
        have he : decode_wire val = NodeRefDeltaMptCompact.mk (val * 2 ^ 32) :=
          compact_value_ext (decode_wire_value val)
        rw [he]
        apply is_committed_of_div
        omega
      unfold NodeRefDeltaMptCompact.toNodeRef
      rw [NodeRefDeltaMptCompact.is_dirty, hcom]
      simp [NodeRefDeltaMpt.original_db_key]
  · intro k hk
    rw [decode_eq k hk]
    exact toNodeRef_toCompact_committed hk
  · intro k hk
    by_cases h31 : k < 2 ^ 31
    · exact decode_eq k h31
    · apply compact_value_ext
      have hval := toCompact_committed_value_high (show 2 ^ 31 ≤ k by omega) hk
      have hw : (NodeRefDeltaMpt.Committed k).toCompact.wire_u32 = k - 2 ^ 31 := by
        show ((NodeRefDeltaMpt.Committed k).toCompact.value >>> 32) % 2 ^ 32 = k - 2 ^ 31
        rw [hval, Nat.shiftRight_eq_div_pow]
        omega
      rw [decode_wire_value, hw, hval]

/-- Claim C6 witness: the amended wire-form facts evaluated at db key 5 and
wire value 9. -/
theorem wire_form_spec_witness :
    (NodeRefDeltaMpt.Committed 5).toCompact.wire_u32
        = (NodeRefDeltaMpt.Committed 5).toCompact.value / 2 ^ 32
    ∧ (NodeRefDeltaMpt.Committed 5).toCompact.wire_u32 = 2 ^ 31 + 5
    ∧ rlpEncodeUint (NodeRefDeltaMpt.Committed 5).toCompact.wire_u32
        = 0x84 :: beBytes4 (2 ^ 31 + 5)
    ∧ (decode_wire 9).value % 2 ^ 32 = 0
    ∧ (decode_wire 9).toNodeRef.original_db_key = none
    ∧ (decode_wire (NodeRefDeltaMpt.Committed 5).toCompact.wire_u32).toNodeRef
        = .Committed 5
    ∧ decode_wire (NodeRefDeltaMpt.Committed 5).toCompact.wire_u32
        = (NodeRefDeltaMpt.Committed 5).toCompact :=
  ⟨wire_form_spec.1 _ (by decide), (wire_form_spec.2.1 5 (by decide)).1,
    (wire_form_spec.2.1 5 (by decide)).2, wire_form_spec.2.2.1 9,
    wire_form_spec.2.2.2.1 9 (by decide), wire_form_spec.2.2.2.2.1 5 (by decide),
    wire_form_spec.2.2.2.2.2 5 (by decide)⟩

/-! ## Association-list helpers

`BTreeMap` / `HashMap` state from the Rust code is modelled as association
lists with lookup-by-key semantics; iteration order is irrelevant to the
claims below. -/

def alookup {α : Type} : List (Nat × α) → Nat → Option α
  | [], _ => none
  | (k2, v) :: rest, k => if k2 == k then some v else alookup rest k

def areplace {α : Type} (l : List (Nat × α)) (k : Nat) (v : α) : List (Nat × α) :=
  l.map (fun p => if p.1 == k then (p.1, v) else p)

def aremove {α : Type} (l : List (Nat × α)) (k : Nat) : List (Nat × α) :=
  l.filter (fun p => p.1 != k)

def ainsert {α : Type} (l : List (Nat × α)) (k : Nat) (v : α) : List (Nat × α) :=
  match alookup l k with
  | some _ => areplace l k v
  | none => l ++ [(k, v)]

/-- Map update in the style of `HashMap::entry(k).or_insert(d)` followed by a
mutation `f` of the entry. -/
def aupsert {α : Type} (l : List (Nat × α)) (k : Nat) (d : α) (f : α → α) :
    List (Nat × α) :=
  match alookup l k with
  | some _ => l.map (fun p => if p.1 == k then (p.1, f p.2) else p)
  | none => l ++ [(k, f d)]

/-! ## Owned node set (`owned_node_set.rs`) -/

/-- Source: `OwnedNodeSet` — a map from dirty slot index to optional original
db key plus a set of committed db keys. -/
structure OwnedNodeSet where
  dirty : List (Nat × Option Nat)
  committed : List Nat
deriving DecidableEq, Repr

/-- Source: `OwnedNodeSet::insert`; returns whether the ref was newly
inserted. -/
def OwnedNodeSet.insert (s : OwnedNodeSet) : NodeRefDeltaMpt → OwnedNodeSet × Bool
  | .Committed db_key =>
      if s.committed.contains db_key then (s, false)
      else ({ s with committed := s.committed ++ [db_key] }, true)
  | .Dirty index original_db_key =>
      match alookup s.dirty index with
      | some _ => ({ s with dirty := areplace s.dirty index original_db_key }, false)
      | none => ({ s with dirty := s.dirty ++ [(index, original_db_key)] }, true)

/-- Source: `OwnedNodeSet::remove`; returns whether the ref was present. -/
def OwnedNodeSet.remove (s : OwnedNodeSet) : NodeRefDeltaMpt → OwnedNodeSet × Bool
  | .Committed db_key =>
      ({ s with committed := s.committed.filter (fun k => k != db_key) },
        s.committed.contains db_key)
  | .Dirty index _ =>
      ({ s with dirty := aremove s.dirty index }, (alookup s.dirty index).isSome)

/-- Source: `OwnedNodeSet::contains`. -/
def OwnedNodeSet.contains (s : OwnedNodeSet) : NodeRefDeltaMpt → Bool
  | .Committed db_key => s.committed.contains db_key
  | .Dirty index _ => (alookup s.dirty index).isSome

/-! ## Trie nodes, the commit transaction and the mutable trie state -/

/-- Source: `TrieNodeDeltaMpt` (fields used by the claims): compressed path,
optional value, children table of optional compact child refs, merkle hash.
The nibble-level packing of paths is abstracted to a list. -/
structure TrieNodeDeltaMpt where
  compressed_path : List Nat
  value : Option (List Nat)
  children_table : List (Option NodeRefDeltaMptCompact)
  merkle_hash : Nat
deriving DecidableEq, Repr

inductive StorageError where
  | OutOfMemory
  | StorageCorrupt
deriving DecidableEq, Repr

/-- A single `put` recorded by the atomic commit transaction: column, key
bytes (here the key string), value bytes. -/
structure WriteOp where
  col : Nat
  key : String
  bytes : List Nat
deriving DecidableEq, Repr

/-- Column ids; the concrete values live in the `db` crate outside the source
sample, only their distinctness matters. -/
def COL_DELTA_TRIE : Nat := 0

def COL_CHILDREN_MERKLES : Nat := 1

/-- Modelled from the spec: `RowNumber` lives in `state_manager.rs`, which is
not part of the source sample.  Per the spec the db key is the ASCII decimal
string of the row-number integer and allocation is strictly monotonic. -/
structure RowNumber where
  value : Nat
deriving DecidableEq, Repr

/-- Modelled from the spec: `row_number.to_string()` is the decimal ASCII
rendering of the integer. -/
def RowNumber.to_string (r : RowNumber) : String := Nat.repr r.value

/-- Modelled from the spec: `row_number.get_next()` advances by one. -/
def RowNumber.get_next (r : RowNumber) : Except StorageError RowNumber :=
  .ok ⟨r.value + 1⟩

/-- Source: `AtomicCommitTransaction` (from `state_manager.rs`, outside the
sample): the `info.row_number` counter plus the ordered list of `put` calls
made on the underlying KV transaction. -/
structure AtomicCommitTransaction where
  row_number : RowNumber
  writes : List WriteOp
deriving DecidableEq, Repr

def AtomicCommitTransaction.put (t : AtomicCommitTransaction) (col : Nat)
    (key : String) (bytes : List Nat) : AtomicCommitTransaction :=
  { t with writes := t.writes ++ [⟨col, key, bytes⟩] }

/-- Modelled from the spec: the cache manager's node-ref map registers each
newly committed db key mapped to the old in-memory slot (`cow_node_ref.rs`
calls `insert_to_node_ref_map_and_call_cache_access`, whose body lives in
`node_memory_manager.rs`, outside the source sample). -/
structure CacheManagerDeltaMpt where
  node_ref_map : List (Nat × Nat)
deriving DecidableEq, Repr

def CacheManagerDeltaMpt.insert_to_node_ref_map (c : CacheManagerDeltaMpt)
    (db_key slot : Nat) : Except StorageError CacheManagerDeltaMpt :=
  .ok { node_ref_map := ainsert c.node_ref_map db_key slot }

/-- The mutable state threaded through the CoW operations: the slab
allocator, the owned node set, the children-merkle map, the commit
transaction, the cache manager, and the (decoded) delta-db contents. -/
structure MptState where
  slab : List (Option TrieNodeDeltaMpt)
  slab_cap : Nat
  owned_node_set : OwnedNodeSet
  children_merkle_map : List (Nat × List Nat)
  commit_transaction : AtomicCommitTransaction
  cache : CacheManagerDeltaMpt
  db : List (Nat × TrieNodeDeltaMpt)
deriving DecidableEq, Repr

def slabGet (st : MptState) (idx : Nat) : Option TrieNodeDeltaMpt :=
  match st.slab.get? idx with
  | some (some n) => some n
  | _ => none

def slabSet (st : MptState) (idx : Nat) (n : TrieNodeDeltaMpt) : MptState :=
  { st with slab := st.slab.set idx (some n) }

/-- Modelled from the spec: `NodeMemoryManager::new_node` reserves a fresh
slot (the vacant entry) without initializing it and fails with OutOfMemory
only when the slab is exhausted. -/
def newNode (st : MptState) (original_db_key : Option Nat) :
    Except StorageError (NodeRefDeltaMpt × Nat × MptState) :=
  if st.slab.length < st.slab_cap then
    .ok (.Dirty st.slab.length original_db_key, st.slab.length,
      { st with slab := st.slab ++ [none] })
  else .error .OutOfMemory

/-- Modelled from the spec: `NodeMemoryManager::free_owned_node` returns the
slot; its precondition is that the ref is dirty and owned. -/
def freeOwnedNode (st : MptState) : NodeRefDeltaMpt → MptState
  | .Dirty index _ => { st with slab := st.slab.set index none }
  | .Committed _ => st

/-- Modelled from the spec: `dirty_node_as_mut_unchecked` resolves a dirty
ref through the slab; the unchecked precondition (dirty and owned) is
modelled as a StorageCorrupt error when violated. -/
def dirtyNodeAsMut (st : MptState) : NodeRefDeltaMpt → Except StorageError TrieNodeDeltaMpt
  | .Dirty index _ =>
      match slabGet st index with
      | some n => .ok n
      | none => .error .StorageCorrupt
  | .Committed _ => .error .StorageCorrupt

/-- Modelled from the spec: `node_as_ref_with_cache_manager` resolves a dirty
ref through the slab and a committed ref through the delta-db (cache
installation is omitted; it does not affect the properties below). -/
def getTrieNode (st : MptState) : NodeRefDeltaMpt → Except StorageError TrieNodeDeltaMpt
  | .Dirty index _ =>
      match slabGet st index with
      | some n => .ok n
      | none => .error .StorageCorrupt
  | .Committed db_key =>
      match alookup st.db db_key with
      | some n => .ok n
      | none => .error .StorageCorrupt

/-- Modelled from the spec: `trie_node.rlp_bytes()` — the trie-node RLP codec
lives outside the source sample; the claims below depend only on which key
each node is written under, not on the byte layout, so the node is flattened
to bytes in a direct way. -/
def encodeNode (n : TrieNodeDeltaMpt) : List Nat :=
  n.compressed_path
    ++ n.children_table.map (fun c => (c.map NodeRefDeltaMptCompact.value).getD 0)
    ++ n.value.getD []

/-! ## The copy-on-write node handle (`cow_node_ref.rs`) -/

/-- Source: `CowNodeRef` — an `owned` flag plus the wrapped node ref.  The
`Drop` implementation asserts `owned == false`. -/
structure CowNodeRef where
  owned : Bool
  node_ref : NodeRefDeltaMpt
deriving DecidableEq, Repr

/-- Source: `CowNodeRef::new` — `owned` is set from membership in the owned
node set. -/
def CowNodeRef.new (node_ref : NodeRefDeltaMpt) (owned_node_set : OwnedNodeSet) :
    CowNodeRef :=
  { owned := owned_node_set.contains node_ref, node_ref := node_ref }

def CowNodeRef.is_owned (self : CowNodeRef) : Bool := self.owned

/-- Source: `CowNodeRef::delete_node` — when owned, frees the slot, removes
the ref from the owned set and clears `owned`; otherwise a no-op. -/
def CowNodeRef.delete_node (self : CowNodeRef) (st : MptState) :
    CowNodeRef × MptState :=
  if self.owned then
    let st1 := freeOwnedNode st self.node_ref
    let st2 := { st1 with owned_node_set := (st1.owned_node_set.remove self.node_ref).1 }
    ({ self with owned := false }, st2)
  else (self, st)

/-- Source: `CowNodeRef::into_child` — clears `owned` when set and returns
the compact child ref. -/
def CowNodeRef.into_child (self : CowNodeRef) :
    CowNodeRef × Option NodeRefDeltaMptCompact :=
  (if self.owned then { self with owned := false } else self,
    some self.node_ref.toCompact)

/-- Source: `CowNodeRef::convert_to_owned` — no-op when owned; otherwise
allocates a fresh slot inheriting the prior ref's db key as the original db
key, inserts the new dirty ref into the owned set, sets `owned`, and returns
the vacant slot. -/
def CowNodeRef.convert_to_owned (self : CowNodeRef) (st : MptState) :
    Except StorageError (CowNodeRef × MptState × Option Nat) :=
  if self.owned then .ok (self, st, none)
  else
    let original_db_key :=
      match self.node_ref with
      | .Committed db_key => some db_key
      | .Dirty _ o => o
    match newNode st original_db_key with
    | .error e => .error e
    | .ok (node_ref, idx, st1) =>
      let st2 := { st1 with owned_node_set := (st1.owned_node_set.insert node_ref).1 }
      .ok ({ owned := true, node_ref := node_ref }, st2, some idx)

/-- Source: `CowNodeRef::cow_set_compressed_path`, specialized through
`cow_modify_with_operation`: when the handle was already owned the node's
path is replaced in place (in the slab slot of the handle), otherwise the
read-only node is cloned with the path replaced
(`copy_and_replace_fields(None, Some path, None)`) into the fresh slot. -/
def CowNodeRef.cow_set_compressed_path (self : CowNodeRef) (st : MptState)
    (path : List Nat) (trie_node : TrieNodeDeltaMpt) :
    Except StorageError (CowNodeRef × MptState) :=
  match self.convert_to_owned st with
  | .error e => .error e
  | .ok (self2, st1, none) =>
    match self2.node_ref with
    | .Dirty idx _ =>
        .ok (self2, slabSet st1 idx { trie_node with compressed_path := path })
    | .Committed _ => .error .StorageCorrupt
  | .ok (self2, st1, some idx) =>
      .ok (self2, slabSet st1 idx { trie_node with compressed_path := path })

/-- Modelled from the spec: `TrieNode::path_prepended` prepends the parent's
compressed path plus the child-index nibble to the child's path (the
trie-node implementation is outside the source sample; nibble packing is
abstracted to list concatenation). -/
def pathPrepended (child : TrieNodeDeltaMpt) (path_head : List Nat)
    (child_index : Nat) : List Nat :=
  path_head ++ [child_index] ++ child.compressed_path

/-- Source: `CowNodeRef::cow_merge_path` — builds a CoW handle over the
child, prepends the parent's path to the child's path via
`cow_set_compressed_path`, and consumes `self` via `delete_node`.  The result
carries the consumed `self` handle (as the Rust destructor observes it) and
the merged child handle. -/
def CowNodeRef.cow_merge_path (self : CowNodeRef) (st : MptState)
    (trie_node : TrieNodeDeltaMpt) (child_node_ref : NodeRefDeltaMpt)
    (child_index : Nat) :
    Except StorageError (CowNodeRef × CowNodeRef × MptState) :=
  let child_node_cow := CowNodeRef.new child_node_ref st.owned_node_set
  let path_head := trie_node.compressed_path
  match getTrieNode st child_node_cow.node_ref with
  | .error e => .error e
  | .ok child_trie_node =>
    let new_path := pathPrepended child_trie_node path_head child_index
    match child_node_cow.cow_set_compressed_path st new_path child_trie_node with
    | .error e => .error e
    | .ok (child_node_cow2, st1) =>
      let (self2, st2) := self.delete_node st1
      .ok (self2, child_node_cow2, st2)

/-- Source: `get_precomputed_children_merkles_unchecked` — for a dirty ref
with an original db key, looks the key up in the children-merkle map; the
committed case is unreachable under the `owned` precondition. -/
def precomputedChildrenMerkles (node_ref : NodeRefDeltaMpt)
    (children_merkle_map : List (Nat × List Nat)) : Option (List Nat) :=
  match node_ref with
  | .Committed _ => none
  | .Dirty _ (some key) => alookup children_merkle_map key
  | .Dirty _ none => none

/-- Source: the children-merkles `put` inside `commit_dirty_recursively`:
when `self` has precomputed children merkles, write them under the current
row number in the children-merkles column. -/
def putChildrenMerkles (self : CowNodeRef) (st3 : MptState) : MptState :=
  match precomputedChildrenMerkles self.node_ref st3.children_merkle_map with
  | some merkles =>
      let txn4 := st3.commit_transaction.put COL_CHILDREN_MERKLES st3.commit_transaction.row_number.to_string merkles
      { st3 with commit_transaction := txn4 }
  | none => st3

/-- Source: the `children_merkle_map.remove(key)` step of
`commit_dirty_recursively`, keyed by the original db key. -/
def removeStaleChildrenMerkles (original_db_key : Option Nat) (st4 : MptState) :
    MptState :=
  match original_db_key with
  | some key =>
      { st4 with children_merkle_map := aremove st4.children_merkle_map key }
  | none => st4

/-- Source: the tail of `CowNodeRef::commit_dirty_recursively` after the
children have been committed (factored out of the recursion): write the node
under the current row number in the delta-trie column, write the precomputed
children merkles (if any) under the same row number in the children-merkles
column, drop the stale children-merkle entry, advance the row number, insert
the committed ref into the owned set, register the new db key with the cache
manager, remove the old dirty ref, and replace `self.node_ref` with the
committed form.  The `owned` flag of `self` is not modified. -/
def commitNodeWrite (self : CowNodeRef) (slot : Nat) (original_db_key : Option Nat)
    (node2 : TrieNodeDeltaMpt) (st1 : MptState) :
    Except StorageError (CowNodeRef × MptState × Bool) :=
  let st2 := slabSet st1 slot node2
  let db_key := st2.commit_transaction.row_number.value
  let txn3 := st2.commit_transaction.put COL_DELTA_TRIE st2.commit_transaction.row_number.to_string (encodeNode node2)
  let st3 := { st2 with commit_transaction := txn3 }
  let st4 := putChildrenMerkles self st3
  let st5 := removeStaleChildrenMerkles original_db_key st4
  match st5.commit_transaction.row_number.get_next with
  | .error e => .error e
  | .ok next =>
    let txn6 := { st5.commit_transaction with row_number := next }
    let st6 := { st5 with commit_transaction := txn6 }
    let committed_node_ref := NodeRefDeltaMpt.Committed db_key
    let st7 := { st6 with owned_node_set := (st6.owned_node_set.insert committed_node_ref).1 }
    match st7.cache.insert_to_node_ref_map db_key slot with
    | .error e => .error e
    | .ok cache2 =>
      let st8 := { st7 with cache := cache2 }
      let st9 := { st8 with owned_node_set := (st8.owned_node_set.remove self.node_ref).1 }
      .ok ({ self with node_ref := committed_node_ref }, st9, true)

mutual

/-- Source: `CowNodeRef::commit_dirty_recursively`.  The `&mut trie_node`
argument is modelled by reading the slab slot of `self` at entry and writing
the updated node back once the children are committed; `fuel` bounds the
recursion depth (the Rust recursion terminates because the dirty region of
the node graph is a tree).  On the owned path: recurse into owned children,
write the node under the current row number in the delta-trie column, write
the precomputed children merkles (if any) under the same row number in the
children-merkles column, drop the stale children-merkle entry, advance the
row number, insert the committed ref into the owned set, register the new db
key with the cache manager, remove the old dirty ref, and replace
`self.node_ref` with the committed form.  The `owned` flag of `self` is not
modified. -/
def commitDirtyRecursively (fuel : Nat) (self : CowNodeRef) (st : MptState) :
    Except StorageError (CowNodeRef × MptState × Bool) :=
  match fuel with
  | 0 => .error .StorageCorrupt
  | fuel + 1 =>
    if self.owned then
      match self.node_ref with
      | .Committed _ => .error .StorageCorrupt
      | .Dirty slot original_db_key =>
        match slabGet st slot with
        | none => .error .StorageCorrupt
        | some node =>
          match commitChildren fuel node.children_table st with
          | .error e => .error e
          | .ok (children2, st1) =>
            commitNodeWrite self slot original_db_key
              { node with children_table := children2 } st1
    else
      .ok (self, st, false)
termination_by (fuel, 0)

/-- Source: `CowNodeRef::commit_dirty_recurse_into_children` — for each
populated child build a CoW handle; when it is owned, commit it recursively
and replace the child-table entry with `into_child()` of the committed
handle (on error the handle is likewise consumed before the error
propagates, which has no state effect and is omitted). -/
def commitChildren (fuel : Nat) (children : List (Option NodeRefDeltaMptCompact))
    (st : MptState) :
    Except StorageError (List (Option NodeRefDeltaMptCompact) × MptState) :=
  match children with
  | [] => .ok ([], st)
  | none :: rest =>
    match commitChildren fuel rest st with
    | .error e => .error e
    | .ok (rest2, st1) => .ok (none :: rest2, st1)
  | some child_ref :: rest =>
    let cow := CowNodeRef.new child_ref.toNodeRef st.owned_node_set
    if cow.is_owned then
      match commitDirtyRecursively fuel cow st with
      | .error e => .error e
      | .ok (cow2, st1, _) =>
        let new_ref := cow2.into_child.2
        match commitChildren fuel rest st1 with
        | .error e => .error e
        | .ok (rest2, st2) => .ok (new_ref :: rest2, st2)
    else
      match commitChildren fuel rest st with
      | .error e => .error e
      | .ok (rest2, st1) => .ok (some child_ref :: rest2, st1)
termination_by (fuel, children.length + 1)

end

/-! ## Claim C2: the owned flag after the consuming operations -/

/-- A trie node with no value and an empty (all-absent) children table. -/
def cexNode : TrieNodeDeltaMpt :=
  { compressed_path := [], value := none,
    children_table := List.replicate 16 none, merkle_hash := 0 }

/-- A one-node trie state: slot 0 holds `cexNode`, owned by the session, with
the commit transaction at row number 7. -/
def cexState : MptState :=
  { slab := [some cexNode], slab_cap := 4,
    owned_node_set := { dirty := [(0, none)], committed := [] },
    children_merkle_map := [],
    commit_transaction := { row_number := ⟨7⟩, writes := [] },
    cache := { node_ref_map := [] },
    db := [] }

/-- The owned handle over slot 0 of `cexState`. -/
def cexHandle : CowNodeRef := { owned := true, node_ref := .Dirty 0 none }

/-- Claim C2 counterexample: committing the owned handle of the one-node
state succeeds (returns `true`), yet the handle's `owned` flag is still
`true` afterwards — `commit_dirty_recursively` does not clear `owned`. -/
theorem cow_commit_keeps_owned_cex :
    (commitDirtyRecursively 1 cexHandle cexState).map (fun r => (r.1.owned, r.2.2))
      = .ok (true, true)
    ∧ cexHandle.owned = true := by
  constructor
  · simp [commitDirtyRecursively, commitChildren, commitNodeWrite,
      putChildrenMerkles, removeStaleChildrenMerkles, cexHandle,
      cexState, cexNode,
      slabGet, slabSet, RowNumber.to_string, RowNumber.get_next,
      AtomicCommitTransaction.put, OwnedNodeSet.insert, OwnedNodeSet.remove,
      CacheManagerDeltaMpt.insert_to_node_ref_map, ainsert, alookup, aremove,
      areplace, precomputedChildrenMerkles, encodeNode, List.replicate, Except.map]
  · rfl

/-- Claim C2 (amended): of the four consuming operations, `delete_node`,
`into_child`, and `cow_merge_path` (on its success path, which consumes
`self` through `delete_node`) leave the consumed handle's `owned` flag
false; `commit_dirty_recursively`, however, leaves the flag unchanged — an
owned handle is still owned after a successful commit and must additionally
be consumed (as `commit_dirty_recurse_into_children` does via `into_child`)
before the destructor assertion can pass. -/
theorem cow_consume_clears_owned (self : CowNodeRef) (st : MptState)
    (h : self.owned = true) :
    ((self.delete_node st).1.owned = false)
    ∧ ((CowNodeRef.into_child self).1.owned = false)
    ∧ (∀ fuel self2 st2 b,
        commitDirtyRecursively fuel self st = .ok (self2, st2, b) →
        self2.owned = true)
    ∧ (∀ tn cref ci self2 child2 st2,
        self.cow_merge_path st tn cref ci = .ok (self2, child2, st2) →
        self2.owned = false) := by
  refine ⟨?_, ?_, ?_, ?_⟩
  · simp [CowNodeRef.delete_node, h]
  · simp [CowNodeRef.into_child, h]
  · intro fuel self2 st2 b hc
    match fuel with
    | 0 => simp [commitDirtyRecursively] at hc
    | fuel + 1 =>
      rw [commitDirtyRecursively, if_pos h] at hc
      split at hc
      · exact Except.noConfusion hc
      · split at hc
        · exact Except.noConfusion hc
        · split at hc
          · exact Except.noConfusion hc
          · simp only [commitNodeWrite, RowNumber.get_next,
              CacheManagerDeltaMpt.insert_to_node_ref_map,
              Except.ok.injEq, Prod.mk.injEq] at hc
            obtain ⟨h1, -, -⟩ := hc
            rw [← h1]
            exact h
  · intro tn cref ci self2 child2 st2 hm
    simp only [CowNodeRef.cow_merge_path] at hm
    split at hm
    · exact Except.noConfusion hm
    · split at hm
      · exact Except.noConfusion hm
      · simp only [CowNodeRef.delete_node, h, if_true, Except.ok.injEq,
          Prod.mk.injEq] at hm
        obtain ⟨h1, -, -⟩ := hm
        rw [← h1]

/-- Claim C2 witness: the amended flag behaviour evaluated on the concrete
one-node state. -/
theorem cow_consume_clears_owned_witness :
    cexHandle.owned = true
    ∧ ((cexHandle.delete_node cexState).1.owned = false)
    ∧ ((CowNodeRef.into_child cexHandle).1.owned = false) :=
  ⟨rfl, (cow_consume_clears_owned cexHandle cexState rfl).1,
    (cow_consume_clears_owned cexHandle cexState rfl).2.1⟩

/-! ## Claim C3: monotonic row numbers during commit -/

def rowOf (st : MptState) : Nat := st.commit_transaction.row_number.value

def writesOf (st : MptState) : List WriteOp := st.commit_transaction.writes

/-- The keys of the delta-trie-column writes of a transaction, in write
order. -/
def deltaTrieKeys (ws : List WriteOp) : List String :=
  (ws.filter (fun w => w.col == COL_DELTA_TRIE)).map WriteOp.key

/-- `st2` extends `st`: the row number does not decrease and the delta-trie
writes appended between the two states are keyed by the decimal strings of
the consecutive row numbers starting at `rowOf st`. -/
def WritesExtend (st st2 : MptState) : Prop :=
  rowOf st ≤ rowOf st2
  ∧ deltaTrieKeys (writesOf st2)
      = deltaTrieKeys (writesOf st)
        ++ (List.range' (rowOf st) (rowOf st2 - rowOf st)).map Nat.repr

theorem range_glue {a b c : Nat} (hab : a ≤ b) (hbc : b ≤ c) :
    List.range' a (b - a) ++ List.range' b (c - b) = List.range' a (c - a) := by
  obtain ⟨d, rfl⟩ : ∃ d, b = a + d := ⟨b - a, by omega⟩
  obtain ⟨e, rfl⟩ : ∃ e, c = a + d + e := ⟨c - (a + d), by omega⟩
  have h1 : a + d - a = d := by omega
  have h2 : a + d + e - (a + d) = e := by omega
  have h3 : a + d + e - a = d + e := by omega
  rw [h1, h2, h3, List.range'_append_1, Nat.add_comm]

theorem writesExtend_refl (st : MptState) : WritesExtend st st :=
  ⟨Nat.le_refl _, by simp⟩

theorem writesExtend_trans {s1 s2 s3 : MptState} (h12 : WritesExtend s1 s2)
    (h23 : WritesExtend s2 s3) : WritesExtend s1 s3 := by
  obtain ⟨l12, e12⟩ := h12
  obtain ⟨l23, e23⟩ := h23
  refine ⟨Nat.le_trans l12 l23, ?_⟩
  rw [e23, e12, List.append_assoc, ← List.map_append, range_glue l12 l23]

theorem deltaTrieKeys_append (a b : List WriteOp) :
    deltaTrieKeys (a ++ b) = deltaTrieKeys a ++ deltaTrieKeys b := by
  simp [deltaTrieKeys, List.filter_append]

/-- The result contract of the non-recursive commit tail and of the full
recursive commit: the writes extend the state monotonically; on `true` the
handle now carries the committed ref of the last row written; on `false`
nothing changed. -/
def CommitResultOk (self : CowNodeRef) (st : MptState)
    (out : CowNodeRef × MptState × Bool) : Prop :=
  WritesExtend st out.2.1
  ∧ (out.2.2 = true →
      out.1.node_ref = .Committed (rowOf out.2.1 - 1) ∧ rowOf st < rowOf out.2.1)
  ∧ (out.2.2 = false → out.1 = self ∧ out.2.1 = st)

theorem putChildrenMerkles_row (self : CowNodeRef) (st : MptState) :
    (putChildrenMerkles self st).commit_transaction.row_number
      = st.commit_transaction.row_number := by
  unfold putChildrenMerkles
  split <;> simp [AtomicCommitTransaction.put]

theorem putChildrenMerkles_deltaKeys (self : CowNodeRef) (st : MptState) :
    deltaTrieKeys (putChildrenMerkles self st).commit_transaction.writes
      = deltaTrieKeys st.commit_transaction.writes := by
  unfold putChildrenMerkles
  split
  · simp [AtomicCommitTransaction.put, deltaTrieKeys_append, deltaTrieKeys,
      COL_DELTA_TRIE, COL_CHILDREN_MERKLES]
  · rfl

theorem removeStaleChildrenMerkles_txn (o : Option Nat) (st : MptState) :
    (removeStaleChildrenMerkles o st).commit_transaction = st.commit_transaction := by
  unfold removeStaleChildrenMerkles
  split <;> rfl

theorem deltaTrieKeys_delta_singleton (k : String) (b : List Nat) :
    deltaTrieKeys [⟨COL_DELTA_TRIE, k, b⟩] = [k] := rfl

theorem commitNodeWrite_ok (self : CowNodeRef) (slot : Nat) (o : Option Nat)
    (node2 : TrieNodeDeltaMpt) (st1 : MptState)
    (out : CowNodeRef × MptState × Bool)
    (h : commitNodeWrite self slot o node2 st1 = .ok out) :
    CommitResultOk self st1 out ∧ rowOf out.2.1 = rowOf st1 + 1
    ∧ out.2.2 = true := by
  simp only [commitNodeWrite, RowNumber.get_next,
    CacheManagerDeltaMpt.insert_to_node_ref_map, Except.ok.injEq] at h
  rw [← h]
  have hrow : ∀ st : MptState,
      rowOf { st with commit_transaction :=
        { st.commit_transaction with
          row_number := ⟨st.commit_transaction.row_number.value + 1⟩ } }
      = rowOf st + 1 := fun _ => rfl
  refine ⟨⟨⟨?_, ?_⟩, fun _ => ⟨?_, ?_⟩, fun hb => Bool.noConfusion hb⟩, ?_, rfl⟩
  all_goals
    simp [rowOf, writesOf, slabSet, AtomicCommitTransaction.put, deltaTrieKeys_append,
      RowNumber.to_string, putChildrenMerkles_row, putChildrenMerkles_deltaKeys,
      removeStaleChildrenMerkles_txn, deltaTrieKeys_delta_singleton]

theorem commitChildren_extend (fuel : Nat)
    (hP : ∀ self st out, commitDirtyRecursively fuel self st = .ok out →
      WritesExtend st out.2.1) :
    ∀ children st out, commitChildren fuel children st = .ok out →
      WritesExtend st out.2 := by
  intro children
  induction children with
  | nil =>
    intro st out h
    rw [commitChildren] at h
    rw [Except.ok.injEq] at h
    rw [← h]
    exact writesExtend_refl st
  | cons c rest ih =>
    intro st out h
    cases c with
    | none =>
      rw [commitChildren] at h
      split at h
      · exact Except.noConfusion h
      · rename_i rest2 st1 heq
        rw [Except.ok.injEq] at h
        rw [← h]
        exact ih st (rest2, st1) heq
    | some cref =>
      rw [commitChildren] at h
      by_cases howned : (CowNodeRef.new cref.toNodeRef st.owned_node_set).is_owned
        = true
      · rw [if_pos howned] at h
        split at h
        · exact Except.noConfusion h
        · rename_i cow2 st1 b heq1
          split at h
          · exact Except.noConfusion h
          · rename_i rest2 st2 heq2
            rw [Except.ok.injEq] at h
            rw [← h]
            exact writesExtend_trans (hP _ _ _ heq1) (ih st1 (rest2, st2) heq2)
      · rw [if_neg howned] at h
        split at h
        · exact Except.noConfusion h
        · rename_i rest2 st1 heq
          rw [Except.ok.injEq] at h
          rw [← h]
          exact ih st (rest2, st1) heq

theorem commitDirty_ok : ∀ fuel self st out,
    commitDirtyRecursively fuel self st = .ok out → CommitResultOk self st out := by
  intro fuel
  induction fuel with
  | zero =>
    intro self st out h
    rw [commitDirtyRecursively] at h
    exact Except.noConfusion h
  | succ fuel ih =>
    intro self st out h
    rw [commitDirtyRecursively] at h
    by_cases howned : self.owned = true
    · rw [if_pos howned] at h
      split at h
      · exact Except.noConfusion h
      · split at h
        · exact Except.noConfusion h
        · split at h
          · exact Except.noConfusion h
          · rename_i slot original_db_key node hnode children2 st1 heqc
            have hcw := commitNodeWrite_ok _ _ _ _ _ _ h
            have hch := commitChildren_extend fuel
              (fun self2 st2 out2 hh => (ih self2 st2 out2 hh).1) _ _ _ heqc
            refine ⟨writesExtend_trans hch hcw.1.1, fun hb => ?_, fun hb => ?_⟩
            · obtain ⟨hnr, -⟩ := hcw.1.2.1 hb
              refine ⟨hnr, ?_⟩
              have h1 : rowOf st ≤ rowOf st1 := hch.1
              have h2 := hcw.2.1
              omega
            · rw [hcw.2.2] at hb
              exact Bool.noConfusion hb
    · rw [if_neg howned] at h
      rw [Except.ok.injEq] at h
      rw [← h]
      exact ⟨writesExtend_refl st, fun hb => Bool.noConfusion hb,
        fun _ => ⟨rfl, rfl⟩⟩

/-- Claim C3: during a commit every dirty node is written under the commit
transaction's current row number, serialized as the decimal ASCII string of
the integer, and the row number advances by one after each written node: the
delta-trie-column keys appended by a successful `commit_dirty_recursively`
are exactly the decimal strings of the consecutive row numbers starting at
the initial row, so a node written later receives a strictly greater db key
than every node written earlier by the same delta-db's commits (the final
row number carries over into the next commit).  When the handle was owned
the returned ref is committed under the last row written. -/
theorem commit_rows_monotonic (fuel : Nat) (self self2 : CowNodeRef)
    (st st2 : MptState) (b : Bool)
    (h : commitDirtyRecursively fuel self st = .ok (self2, st2, b)) :
    rowOf st ≤ rowOf st2
    ∧ deltaTrieKeys (writesOf st2)
        = deltaTrieKeys (writesOf st)
          ++ (List.range' (rowOf st) (rowOf st2 - rowOf st)).map Nat.repr
    ∧ List.Pairwise (· < ·) (List.range' (rowOf st) (rowOf st2 - rowOf st))
    ∧ (b = true → self2.node_ref = .Committed (rowOf st2 - 1) ∧ rowOf st < rowOf st2)
    ∧ (b = false → self2 = self ∧ st2 = st) := by
  have hc := commitDirty_ok fuel self st _ h
  exact ⟨hc.1.1, hc.1.2, List.pairwise_lt_range' .., hc.2.1, hc.2.2⟩

/-- The state after committing the one-node example, extracted from the
commit result. -/
def cexOutState : MptState :=
  match commitDirtyRecursively 1 cexHandle cexState with
  | .ok (_, st2, _) => st2
  | .error _ => cexState

/-- Claim C3 witness: the monotonic-rows contract evaluated on the concrete
one-node commit (row 7 is written, the row number advances to 8). -/
theorem commit_rows_monotonic_witness :
    rowOf cexState ≤ rowOf cexOutState
    ∧ deltaTrieKeys (writesOf cexOutState)
        = deltaTrieKeys (writesOf cexState)
          ++ (List.range' (rowOf cexState) (rowOf cexOutState - rowOf cexState)).map Nat.repr
    ∧ List.Pairwise (· < ·)
        (List.range' (rowOf cexState) (rowOf cexOutState - rowOf cexState))
    ∧ (true = true →
        (CowNodeRef.mk true (.Committed 7)).node_ref
          = .Committed (rowOf cexOutState - 1)
        ∧ rowOf cexState < rowOf cexOutState)
    ∧ (true = false →
        CowNodeRef.mk true (.Committed 7) = cexHandle ∧ cexOutState = cexState) :=
  commit_rows_monotonic 1 cexHandle (CowNodeRef.mk true (.Committed 7))
    cexState cexOutState true
    (by simp [cexOutState, commitDirtyRecursively, commitChildren, commitNodeWrite,
      putChildrenMerkles, removeStaleChildrenMerkles, cexHandle, cexState, cexNode,
      slabGet, slabSet, RowNumber.to_string, RowNumber.get_next,
      AtomicCommitTransaction.put, OwnedNodeSet.insert, OwnedNodeSet.remove,
      CacheManagerDeltaMpt.insert_to_node_ref_map, ainsert, alookup, aremove,
      areplace, precomputedChildrenMerkles, encodeNode, List.replicate])

/-! ## Block data manager: receipts by epoch (`block_data_manager.rs`)

The `cache_man.note_used` calls of the source (LRU bookkeeping in the shared
cache manager) have no effect on the receipts maps and are omitted from this
embedding; locks are modelled by sequential state passing. -/

/-- Source: `primitives::Receipt` (fields used by the claims): the log bloom
(modelled as a bit mask in `Nat`) and the outcome status. -/
structure Receipt where
  log_bloom : Nat
  outcome_status : Nat
deriving DecidableEq, Repr

/-- Source: `BlockExecutedResult` — receipts plus the aggregated bloom. -/
structure BlockExecutedResult where
  receipts : List Receipt
  bloom : Nat
deriving DecidableEq, Repr

/-- Source: `BlockReceiptsInfo` — the small vector of (epoch, result)
entries for one block hash. -/
structure BlockReceiptsInfo where
  info_with_epoch : List (Nat × BlockExecutedResult)
deriving DecidableEq, Repr

/-- Source: `BlockReceiptsInfo::get_receipts_at_epoch` — returns the first
entry whose epoch matches. -/
def BlockReceiptsInfo.get_receipts_at_epoch (info : BlockReceiptsInfo)
    (epoch : Nat) : Option BlockExecutedResult :=
  alookup info.info_with_epoch epoch

/-- Source: `BlockReceiptsInfo::insert_receipts_at_epoch` — pushes the entry
unless the epoch is already present. -/
def BlockReceiptsInfo.insert_receipts_at_epoch (info : BlockReceiptsInfo)
    (epoch : Nat) (receipts : BlockExecutedResult) : BlockReceiptsInfo :=
  match info.get_receipts_at_epoch epoch with
  | some _ => info
  | none => ⟨info.info_with_epoch ++ [(epoch, receipts)]⟩

/-- Source: `BlockReceiptsInfo::retain_epoch` — keeps only the entries of
the given epoch. -/
def BlockReceiptsInfo.retain_epoch (info : BlockReceiptsInfo) (epoch : Nat) :
    BlockReceiptsInfo :=
  ⟨info.info_with_epoch.filter (fun p => p.1 == epoch)⟩

/-- The `COL_BLOCK_RECEIPTS` row for a block hash: the RLP 3-tuple
`[epoch, receipts, bloom]`. -/
structure DbReceiptsEntry where
  epoch : Nat
  receipts : List Receipt
  bloom : Nat
deriving DecidableEq, Repr

/-- The receipts-related state of `BlockDataManager`: the in-memory
`block_receipts` map and the `COL_BLOCK_RECEIPTS` column (block hashes as
`Nat`). -/
structure BlockDataState where
  block_receipts : List (Nat × BlockReceiptsInfo)
  db_receipts : List (Nat × DbReceiptsEntry)
deriving DecidableEq, Repr

/-- Source: `BlockDataManager::block_results_by_hash_from_db` — decodes the
3-tuple into (epoch, result). -/
def block_results_by_hash_from_db (st : BlockDataState) (hash : Nat) :
    Option (Nat × BlockExecutedResult) :=
  match alookup st.db_receipts hash with
  | some e => some (e.epoch, ⟨e.receipts, e.bloom⟩)
  | none => none

/-- Source: `BlockDataManager::block_results_by_hash_with_epoch` — memory
first (an entry recorded at the assumed epoch); on miss read the KV row and
return `none` when its stored epoch differs from the assumed one; otherwise
optionally install the result in the cache. -/
def block_results_by_hash_with_epoch (st : BlockDataState)
    (hash assumed_epoch : Nat) (update_cache : Bool) :
    Option BlockExecutedResult × BlockDataState :=
  let maybe_receipts :=
    (alookup st.block_receipts hash).bind
      (fun receipt_info => receipt_info.get_receipts_at_epoch assumed_epoch)
  match maybe_receipts with
  | some r => (some r, st)
  | none =>
    match block_results_by_hash_from_db st hash with
    | none => (none, st)
    | some (epoch, receipts) =>
      if epoch != assumed_epoch then (none, st)
      else
        let st2 :=
          if update_cache then
            let cached := aupsert st.block_receipts hash ⟨[]⟩ (fun info => info.insert_receipts_at_epoch assumed_epoch receipts)
            { st with block_receipts := cached }
          else st
        (some receipts, st2)

/-- Source: `BlockDataManager::insert_block_results_to_kv` — OR-folds the
log blooms, persists the `[epoch, receipts, bloom]` 3-tuple under the block
hash when `persistent`, and records the result in the in-memory map. -/
def insert_block_results_to_kv (st : BlockDataState) (hash epoch : Nat)
    (receipts : List Receipt) (persistent : Bool) : BlockDataState :=
  let bloom := receipts.foldl (fun b r => b ||| r.log_bloom) 0
  let st1 :=
    if persistent then
      { st with db_receipts := ainsert st.db_receipts hash ⟨epoch, receipts, bloom⟩ }
    else st
  let cached := aupsert st1.block_receipts hash ⟨[]⟩ (fun info => info.insert_receipts_at_epoch epoch ⟨receipts, bloom⟩)
  { st1 with block_receipts := cached }

/-- Source: `BlockDataManager::receipts_retain_epoch` — `false` when no
entry exists for the hash; otherwise `retain_epoch` is applied in place. -/
def receipts_retain_epoch (st : BlockDataState) (block_hash epoch : Nat) :
    Bool × BlockDataState :=
  match alookup st.block_receipts block_hash with
  | some _ =>
      let retained := st.block_receipts.map (fun p => if p.1 == block_hash then (p.1, p.2.retain_epoch epoch) else p)
      (true, { st with block_receipts := retained })
  | none => (false, st)

/-! ### Association-list lemmas used by the receipts claims -/

theorem alookup_append_right {α : Type} (l : List (Nat × α)) (k : Nat) (v : α)
    (h : alookup l k = none) : alookup (l ++ [(k, v)]) k = some v := by
  induction l with
  | nil => simp [alookup]
  | cons p rest ih =>
    obtain ⟨k2, v2⟩ := p
    rw [alookup] at h
    by_cases hk : k2 = k
    · subst hk
      simp at h
    · rw [List.cons_append, alookup]
      simp only [beq_iff_eq, hk, if_false] at h ⊢
      exact ih h

theorem alookup_map_modify {α : Type} (l : List (Nat × α)) (k : Nat) (f : α → α) :
    alookup (l.map (fun p => if p.1 == k then (p.1, f p.2) else p)) k
      = (alookup l k).map f := by
  induction l with
  | nil => rfl
  | cons p rest ih =>
    obtain ⟨k2, v⟩ := p
    simp only [List.map]
    cases hbk : (k2 == k) with
    | true =>
      have hk : k2 = k := by simpa using hbk
      subst hk
      simp [alookup]
    | false =>
      simp only [hbk, Bool.false_eq_true, if_false]
      rw [alookup, alookup, hbk, ih]
      simp

theorem alookup_ainsert_self {α : Type} (l : List (Nat × α)) (k : Nat) (v : α) :
    alookup (ainsert l k v) k = some v := by
  unfold ainsert
  cases h : alookup l k with
  | some w =>
    unfold areplace
    have := alookup_map_modify l k (fun _ => v)
    rw [this, h]
    rfl
  | none => exact alookup_append_right l k v h

theorem alookup_aupsert_self {α : Type} (l : List (Nat × α)) (k : Nat) (d : α)
    (f : α → α) :
    alookup (aupsert l k d f) k = some (f ((alookup l k).getD d)) := by
  unfold aupsert
  cases h : alookup l k with
  | some w =>
    rw [alookup_map_modify l k f, h]
    rfl
  | none =>
    rw [alookup_append_right l k (f d) h]
    rfl

theorem filter_eq_nil_of_alookup_none {α : Type} (l : List (Nat × α)) (k : Nat)
    (h : alookup l k = none) : l.filter (fun p => p.1 == k) = [] := by
  induction l with
  | nil => rfl
  | cons p rest ih =>
    obtain ⟨k2, v⟩ := p
    rw [alookup] at h
    cases hbk : (k2 == k) with
    | true =>
      rw [hbk] at h
      simp at h
    | false =>
      rw [hbk] at h
      simp only [Bool.false_eq_true, if_false] at h
      simp [List.filter, hbk, ih h]

/-- Claim C4: `block_results_by_hash_with_epoch(h, e, update_cache)` returns
`some result` only when the result was stored under epoch `e`: an in-memory
hit is an entry recorded at epoch `e`, and a KV read whose stored epoch
differs from `e` yields `none`. -/
theorem block_results_epoch_guard :
    (∀ st hash e uc r,
      (block_results_by_hash_with_epoch st hash e uc).1 = some r →
        (∃ info, alookup st.block_receipts hash = some info
          ∧ info.get_receipts_at_epoch e = some r)
        ∨ alookup st.db_receipts hash = some ⟨e, r.receipts, r.bloom⟩)
    ∧ (∀ st hash e uc entry,
      (alookup st.block_receipts hash).bind
          (fun i => i.get_receipts_at_epoch e) = none →
      alookup st.db_receipts hash = some entry →
      entry.epoch ≠ e →
      (block_results_by_hash_with_epoch st hash e uc).1 = none) := by
  constructor
  · intro st hash e uc r h
    cases hm : (alookup st.block_receipts hash).bind
        (fun i => i.get_receipts_at_epoch e) with
    | some r0 =>
      left
      have hr : r0 = r := by
        rw [block_results_by_hash_with_epoch] at h
        simp only [hm] at h
        simpa using h
      rw [Option.bind_eq_some] at hm
      obtain ⟨info, hinfo, hget⟩ := hm
      exact ⟨info, hinfo, by rw [hget, hr]⟩
    | none =>
      cases hdbl : alookup st.db_receipts hash with
      | none =>
        rw [block_results_by_hash_with_epoch] at h
        simp only [hm, block_results_by_hash_from_db, hdbl] at h
        exact Option.noConfusion h
      | some entry =>
        right
        by_cases hee : entry.epoch = e
        · have hr : entry.receipts = r.receipts ∧ entry.bloom = r.bloom := by
            rw [block_results_by_hash_with_epoch] at h
            simp only [hm, block_results_by_hash_from_db, hdbl, hee,
              bne_self_eq_false, Bool.false_eq_true, if_false] at h
            cases uc <;> simp at h <;> (rw [← h]; exact ⟨rfl, rfl⟩)
          have hentry : entry = ⟨e, r.receipts, r.bloom⟩ := by
            obtain ⟨h1, h2⟩ := hr
            cases entry with
            | mk ep rcpts bl =>
              simp only at hee h1 h2
              rw [hee, h1, h2]
          rw [hentry]
        · exfalso
          rw [block_results_by_hash_with_epoch] at h
          have hbne : (entry.epoch != e) = true := by
            simpa using hee
          simp only [hm, block_results_by_hash_from_db, hdbl, hbne, if_true] at h
          exact Option.noConfusion h
  · intro st hash e uc entry hm hdbl hne
    rw [block_results_by_hash_with_epoch]
    have hbne : (entry.epoch != e) = true := by simpa using hne
    simp only [hm, block_results_by_hash_from_db, hdbl, hbne, if_true]

/-- Claim C4 witness: the guard evaluated on a one-entry state — a memory
hit at the recorded epoch, and a KV row stored under epoch 2 read with
assumed epoch 3. -/
theorem block_results_epoch_guard_witness :
    ((∃ info, alookup (BlockDataState.mk [(10, ⟨[(2, ⟨[], 0⟩)]⟩)] []).block_receipts 10
        = some info ∧ info.get_receipts_at_epoch 2 = some ⟨[], 0⟩)
      ∨ alookup (BlockDataState.mk [(10, ⟨[(2, ⟨[], 0⟩)]⟩)] []).db_receipts 10
          = some ⟨2, [], 0⟩)
    ∧ (block_results_by_hash_with_epoch
        (BlockDataState.mk [] [(10, ⟨2, [], 5⟩)]) 10 3 true).1 = none :=
  ⟨block_results_epoch_guard.1 (BlockDataState.mk [(10, ⟨[(2, ⟨[], 0⟩)]⟩)] [])
      10 2 true ⟨[], 0⟩ (by decide),
    block_results_epoch_guard.2 (BlockDataState.mk [] [(10, ⟨2, [], 5⟩)])
      10 3 true ⟨2, [], 5⟩ (by decide) (by decide) (by decide)⟩

/-- Claim C7: for every receipts list passed to `insert_block_results_to_kv`
(recorded fresh for its epoch), the bloom stored in memory — and, when
`persistent` is true, persisted as the third element of the
`[epoch, receipts, bloom]` 3-tuple under the block hash — is the OR-fold of
the log blooms of the receipts in order, starting from the zero bloom. -/
theorem insert_results_bloom_fold (st : BlockDataState) (hash epoch : Nat)
    (rs : List Receipt) (persistent : Bool)
    (hmem : ∀ info, alookup st.block_receipts hash = some info →
      info.get_receipts_at_epoch epoch = none) :
    ((alookup (insert_block_results_to_kv st hash epoch rs persistent).block_receipts
        hash).bind (fun i => i.get_receipts_at_epoch epoch)
      = some ⟨rs, rs.foldl (fun b r => b ||| r.log_bloom) 0⟩)
    ∧ (persistent = true →
      alookup (insert_block_results_to_kv st hash epoch rs persistent).db_receipts
          hash
        = some ⟨epoch, rs, rs.foldl (fun b r => b ||| r.log_bloom) 0⟩) := by
  have hblock :
      (insert_block_results_to_kv st hash epoch rs persistent).block_receipts
        = aupsert st.block_receipts hash ⟨[]⟩
            (fun info => info.insert_receipts_at_epoch epoch
              ⟨rs, rs.foldl (fun b r => b ||| r.log_bloom) 0⟩) := by
    unfold insert_block_results_to_kv
    cases persistent <;> rfl
  constructor
  · rw [hblock, alookup_aupsert_self, Option.some_bind]
    cases hl : alookup st.block_receipts hash with
    | none =>
      simp only [hl, Option.getD_none]
      simp [BlockReceiptsInfo.insert_receipts_at_epoch,
        BlockReceiptsInfo.get_receipts_at_epoch, alookup]
    | some info =>
      simp only [hl, Option.getD_some]
      rw [BlockReceiptsInfo.insert_receipts_at_epoch, hmem info hl]
      exact alookup_append_right info.info_with_epoch epoch _ (hmem info hl)
  · intro hp
    have hdb :
        (insert_block_results_to_kv st hash epoch rs persistent).db_receipts
          = ainsert st.db_receipts hash
              ⟨epoch, rs, rs.foldl (fun b r => b ||| r.log_bloom) 0⟩ := by
      unfold insert_block_results_to_kv
      rw [hp]
      simp
    rw [hdb]
    exact alookup_ainsert_self st.db_receipts hash _

/-- Claim C7 witness: the bloom fold evaluated on two receipts with blooms
`0b0011` and `0b0101` (stored bloom `0b0111`), persisted under hash 4,
epoch 9. -/
theorem insert_results_bloom_fold_witness :
    ((alookup (insert_block_results_to_kv (BlockDataState.mk [] []) 4 9
        [⟨3, 0⟩, ⟨5, 0⟩] true).block_receipts 4).bind
        (fun i => i.get_receipts_at_epoch 9)
      = some ⟨[⟨3, 0⟩, ⟨5, 0⟩], [Receipt.mk 3 0, Receipt.mk 5 0].foldl
          (fun b r => b ||| r.log_bloom) 0⟩)
    ∧ (true = true →
      alookup (insert_block_results_to_kv (BlockDataState.mk [] []) 4 9
          [⟨3, 0⟩, ⟨5, 0⟩] true).db_receipts 4
        = some ⟨9, [⟨3, 0⟩, ⟨5, 0⟩], [Receipt.mk 3 0, Receipt.mk 5 0].foldl
            (fun b r => b ||| r.log_bloom) 0⟩) :=
  insert_results_bloom_fold (BlockDataState.mk [] []) 4 9 [⟨3, 0⟩, ⟨5, 0⟩] true
    (fun _ hinfo => Option.noConfusion hinfo)

/-- Claim C10: `receipts_retain_epoch(h, e)` returns false and leaves the
state unchanged when no receipts info exists for `h`; when the info exists
but has no entry stored under epoch `e`, the call returns true and removes
every entry, leaving the receipts info for `h` empty. -/
theorem receipts_retain_epoch_semantics :
    (∀ st h e, alookup st.block_receipts h = none →
      receipts_retain_epoch st h e = (false, st))
    ∧ (∀ st h e info, alookup st.block_receipts h = some info →
      info.get_receipts_at_epoch e = none →
      (receipts_retain_epoch st h e).1 = true
      ∧ alookup (receipts_retain_epoch st h e).2.block_receipts h
          = some (BlockReceiptsInfo.mk [])
      ∧ (receipts_retain_epoch st h e).2.db_receipts = st.db_receipts) := by
  constructor
  · intro st h e hnone
    rw [receipts_retain_epoch, hnone]
  · intro st h e info hsome hget
    rw [receipts_retain_epoch, hsome]
    refine ⟨rfl, ?_, rfl⟩
    show alookup (st.block_receipts.map
      (fun p => if p.1 == h then (p.1, p.2.retain_epoch e) else p)) h = _
    rw [alookup_map_modify st.block_receipts h
      (fun i => BlockReceiptsInfo.retain_epoch i e), hsome]
    show some (info.retain_epoch e) = _
    rw [BlockReceiptsInfo.retain_epoch,
      filter_eq_nil_of_alookup_none info.info_with_epoch e hget]

/-- Claim C10 witness: retaining on a state with no info for hash 3 returns
false unchanged; retaining epoch 9 on a hash whose only entry is at epoch 2
empties the info and returns true. -/
theorem receipts_retain_epoch_semantics_witness :
    receipts_retain_epoch (BlockDataState.mk [] [(1, ⟨2, [], 0⟩)]) 3 9
      = (false, BlockDataState.mk [] [(1, ⟨2, [], 0⟩)])
    ∧ ((receipts_retain_epoch (BlockDataState.mk [(3, ⟨[(2, ⟨[], 0⟩)]⟩)] []) 3 9).1
        = true
      ∧ alookup (receipts_retain_epoch (BlockDataState.mk [(3, ⟨[(2, ⟨[], 0⟩)]⟩)] [])
          3 9).2.block_receipts 3 = some (BlockReceiptsInfo.mk [])
      ∧ (receipts_retain_epoch (BlockDataState.mk [(3, ⟨[(2, ⟨[], 0⟩)]⟩)] [])
          3 9).2.db_receipts = (BlockDataState.mk [(3, ⟨[(2, ⟨[], 0⟩)]⟩)] []).db_receipts) :=
  ⟨receipts_retain_epoch_semantics.1 (BlockDataState.mk [] [(1, ⟨2, [], 0⟩)]) 3 9
      (by decide),
    receipts_retain_epoch_semantics.2 (BlockDataState.mk [(3, ⟨[(2, ⟨[], 0⟩)]⟩)] [])
      3 9 ⟨[(2, ⟨[], 0⟩)]⟩ (by decide) (by decide)⟩

/-- Claim C5: starting with no receipts for block hash `h`, after
`insert_block_results_to_kv(h, e1, rs, true)` and
`insert_block_results_to_kv(h, e2, rs, true)` with `e1 ≠ e2`,
`block_results_by_hash_with_epoch(h, e1)` returns `rs`; after
`receipts_retain_epoch(h, e2)`, `block_results_by_hash_with_epoch(h, e1)`
returns `none` and `block_results_by_hash_with_epoch(h, e2)` returns `rs`. -/
theorem receipts_epoch_scenario (st0 : BlockDataState) (h e1 e2 : Nat)
    (rs : List Receipt) (uc1 uc2 uc3 : Bool)
    (hne : e1 ≠ e2)
    (hmem : alookup st0.block_receipts h = none)
    (_hdb : alookup st0.db_receipts h = none) :
    ((block_results_by_hash_with_epoch
        (insert_block_results_to_kv (insert_block_results_to_kv st0 h e1 rs true)
          h e2 rs true) h e1 uc1).1.map BlockExecutedResult.receipts = some rs)
    ∧ ((block_results_by_hash_with_epoch
        (receipts_retain_epoch (insert_block_results_to_kv
          (insert_block_results_to_kv st0 h e1 rs true) h e2 rs true) h e2).2
        h e1 uc2).1 = none)
    ∧ ((block_results_by_hash_with_epoch
        (receipts_retain_epoch (insert_block_results_to_kv
          (insert_block_results_to_kv st0 h e1 rs true) h e2 rs true) h e2).2
        h e2 uc3).1.map BlockExecutedResult.receipts = some rs) := by
  have hg12 : BlockReceiptsInfo.get_receipts_at_epoch
      ⟨[(e1, ⟨rs, rs.foldl (fun b r => b ||| r.log_bloom) 0⟩)]⟩ e2 = none := by
    simp [BlockReceiptsInfo.get_receipts_at_epoch, alookup, hne]
  have h1b : alookup (insert_block_results_to_kv st0 h e1 rs true).block_receipts h
      = some ⟨[(e1, ⟨rs, rs.foldl (fun b r => b ||| r.log_bloom) 0⟩)]⟩ := by
    rw [show (insert_block_results_to_kv st0 h e1 rs true).block_receipts
        = aupsert st0.block_receipts h ⟨[]⟩
            (fun info => info.insert_receipts_at_epoch e1
              ⟨rs, rs.foldl (fun b r => b ||| r.log_bloom) 0⟩) from rfl]
    rw [alookup_aupsert_self, hmem]
    rfl
  have h2b : alookup (insert_block_results_to_kv
      (insert_block_results_to_kv st0 h e1 rs true) h e2 rs true).block_receipts h
      = some ⟨[(e1, ⟨rs, rs.foldl (fun b r => b ||| r.log_bloom) 0⟩),
          (e2, ⟨rs, rs.foldl (fun b r => b ||| r.log_bloom) 0⟩)]⟩ := by
    rw [show (insert_block_results_to_kv
        (insert_block_results_to_kv st0 h e1 rs true) h e2 rs true).block_receipts
        = aupsert (insert_block_results_to_kv st0 h e1 rs true).block_receipts h ⟨[]⟩
            (fun info => info.insert_receipts_at_epoch e2
              ⟨rs, rs.foldl (fun b r => b ||| r.log_bloom) 0⟩) from rfl]
    rw [alookup_aupsert_self, h1b]
    simp only [Option.getD_some]
    rw [BlockReceiptsInfo.insert_receipts_at_epoch, hg12]
    rfl
  have h2d : alookup (insert_block_results_to_kv
      (insert_block_results_to_kv st0 h e1 rs true) h e2 rs true).db_receipts h
      = some ⟨e2, rs, rs.foldl (fun b r => b ||| r.log_bloom) 0⟩ := by
    rw [show (insert_block_results_to_kv
        (insert_block_results_to_kv st0 h e1 rs true) h e2 rs true).db_receipts
        = ainsert (insert_block_results_to_kv st0 h e1 rs true).db_receipts h
            ⟨e2, rs, rs.foldl (fun b r => b ||| r.log_bloom) 0⟩ from rfl]
    exact alookup_ainsert_self _ _ _
  have hretain : receipts_retain_epoch (insert_block_results_to_kv
      (insert_block_results_to_kv st0 h e1 rs true) h e2 rs true) h e2
      = (true, { (insert_block_results_to_kv
          (insert_block_results_to_kv st0 h e1 rs true) h e2 rs true) with
          block_receipts := (insert_block_results_to_kv
            (insert_block_results_to_kv st0 h e1 rs true) h e2 rs
            true).block_receipts.map
            (fun p => if p.1 == h
              then (p.1, p.2.retain_epoch e2) else p) }) := by
    rw [receipts_retain_epoch, h2b]
  have h3b : alookup (receipts_retain_epoch (insert_block_results_to_kv
      (insert_block_results_to_kv st0 h e1 rs true) h e2 rs true) h
      e2).2.block_receipts h
      = some ⟨[(e2, ⟨rs, rs.foldl (fun b r => b ||| r.log_bloom) 0⟩)]⟩ := by
    rw [hretain]
    show alookup ((insert_block_results_to_kv
      (insert_block_results_to_kv st0 h e1 rs true) h e2 rs
      true).block_receipts.map
      (fun p => if p.1 == h then (p.1, p.2.retain_epoch e2) else p)) h = _
    rw [alookup_map_modify _ h (fun i => BlockReceiptsInfo.retain_epoch i e2), h2b]
    show some (BlockReceiptsInfo.retain_epoch _ e2) = _
    rw [BlockReceiptsInfo.retain_epoch]
    have hb : (e1 == e2) = false := by simpa using hne
    simp [List.filter, hb]
  have h3d : (receipts_retain_epoch (insert_block_results_to_kv
      (insert_block_results_to_kv st0 h e1 rs true) h e2 rs true) h
      e2).2.db_receipts
      = (insert_block_results_to_kv
          (insert_block_results_to_kv st0 h e1 rs true) h e2 rs true).db_receipts := by
    rw [hretain]
  refine ⟨?_, ?_, ?_⟩
  · have hq : ((alookup (insert_block_results_to_kv
        (insert_block_results_to_kv st0 h e1 rs true) h e2 rs
        true).block_receipts h).bind
        (fun i => i.get_receipts_at_epoch e1))
        = some ⟨rs, rs.foldl (fun b r => b ||| r.log_bloom) 0⟩ := by
      rw [h2b]
      simp [BlockReceiptsInfo.get_receipts_at_epoch, alookup]
    rw [block_results_by_hash_with_epoch]
    simp only [hq]
    rfl
  · have hne2 : ¬e2 = e1 := fun hx => hne hx.symm
    have hq : ((alookup (receipts_retain_epoch (insert_block_results_to_kv
        (insert_block_results_to_kv st0 h e1 rs true) h e2 rs true) h
        e2).2.block_receipts h).bind
        (fun i => i.get_receipts_at_epoch e1)) = none := by
      rw [h3b]
      simp [BlockReceiptsInfo.get_receipts_at_epoch, alookup, hne2]
    rw [block_results_by_hash_with_epoch]
    simp only [hq, block_results_by_hash_from_db, h3d, h2d]
    have hbne : (e2 != e1) = true := by simpa using hne2
    simp only [hbne, if_true]
  · have hq : ((alookup (receipts_retain_epoch (insert_block_results_to_kv
        (insert_block_results_to_kv st0 h e1 rs true) h e2 rs true) h
        e2).2.block_receipts h).bind
        (fun i => i.get_receipts_at_epoch e2))
        = some ⟨rs, rs.foldl (fun b r => b ||| r.log_bloom) 0⟩ := by
      rw [h3b]
      simp [BlockReceiptsInfo.get_receipts_at_epoch, alookup]
    rw [block_results_by_hash_with_epoch]
    simp only [hq]
    rfl

/-- Claim C5 witness: the scenario evaluated on the empty initial state with
hash 1, epochs 2 and 3, and a single receipt. -/
theorem receipts_epoch_scenario_witness :
    ((block_results_by_hash_with_epoch
        (insert_block_results_to_kv (insert_block_results_to_kv
          (BlockDataState.mk [] []) 1 2 [⟨1, 0⟩] true) 1 3 [⟨1, 0⟩] true)
        1 2 true).1.map BlockExecutedResult.receipts = some [⟨1, 0⟩])
    ∧ ((block_results_by_hash_with_epoch
        (receipts_retain_epoch (insert_block_results_to_kv
          (insert_block_results_to_kv (BlockDataState.mk [] []) 1 2 [⟨1, 0⟩] true)
          1 3 [⟨1, 0⟩] true) 1 3).2 1 2 true).1 = none)
    ∧ ((block_results_by_hash_with_epoch
        (receipts_retain_epoch (insert_block_results_to_kv
          (insert_block_results_to_kv (BlockDataState.mk [] []) 1 2 [⟨1, 0⟩] true)
          1 3 [⟨1, 0⟩] true) 1 3).2 1 3 true).1.map BlockExecutedResult.receipts
      = some [⟨1, 0⟩]) :=
  receipts_epoch_scenario (BlockDataState.mk [] []) 1 2 3 [⟨1, 0⟩] true true true
    (by decide) (by decide) (by decide)

/-! ## Light protocol sync: bloom and receipts validation
(`light_protocol/handler/sync/{blooms,receipts}.rs`)

The verified LRU cache's time-based expiry is not modelled (no claim depends
on it); `sync_manager.remove_in_flight` is modelled by filtering the
in-flight set. -/

/-- Source: `light_protocol::ErrorKind` (the kinds used here). -/
inductive LightError where
  | InternalError
  | InvalidBloom
deriving DecidableEq, Repr

/-- Source: message item `BloomWithEpoch`. -/
structure BloomWithEpoch where
  epoch : Nat
  bloom : Nat
deriving DecidableEq, Repr

/-- Source: message item `ReceiptsWithEpoch` (per-block receipt lists). -/
structure ReceiptsWithEpoch where
  epoch : Nat
  receipts : List (List Receipt)
deriving DecidableEq, Repr

/-- Source: `Blooms` — the verified LRU cache (epoch to bloom) and the sync
manager's in-flight set. -/
structure BloomsState where
  verified : List (Nat × Nat)
  in_flight : List Nat
deriving DecidableEq, Repr

/-- Source: `Receipts` — the verified LRU cache (epoch to receipt lists) and
the sync manager's in-flight set. -/
structure ReceiptsState where
  verified : List (Nat × List (List Receipt))
  in_flight : List Nat
deriving DecidableEq, Repr

/-- Source: `Blooms::validate_bloom`.  `keccak` is the hash function (a
parameter of the embedding); `witnesses` is
`Witnesses::root_hashes_of` — modelled from the spec as a lookup returning
the locally trusted `(state_root, receipts_root, bloom_hash)` for an epoch
(`witnesses.rs` is outside the source sample). -/
def validate_bloom (keccak : Nat → Nat) (witnesses : Nat → Option (Nat × Nat × Nat))
    (epoch bloom : Nat) : Except LightError Unit :=
  let received := keccak bloom
  match witnesses epoch with
  | none => .error .InternalError
  | some (_, _, bloom_hash) =>
    if received != bloom_hash then .error .InvalidBloom else .ok ()

/-- Source: `Receipts::validate_receipts` — compares the computed block
receipts root (`compute_block_receipts_root`, a parameter of the embedding)
against the witness receipts root. -/
def validate_receipts (computeRoot : List (List Receipt) → Nat)
    (witnesses : Nat → Option (Nat × Nat × Nat)) (epoch : Nat)
    (receipts : List (List Receipt)) : Except LightError Unit :=
  let received := computeRoot receipts
  match witnesses epoch with
  | none => .error .InternalError
  | some (_, receipts_root, _) =>
    if received != receipts_root then .error .InvalidBloom else .ok ()

/-- Source: `Blooms::receive` — validate each entry; on success insert it
into the verified cache and drop it from the in-flight set; on failure stop,
returning the error (the failing entry is not inserted). -/
def blooms_receive (keccak : Nat → Nat)
    (witnesses : Nat → Option (Nat × Nat × Nat)) (st : BloomsState) :
    List BloomWithEpoch → BloomsState × Option LightError
  | [] => (st, none)
  | item :: rest =>
    match validate_bloom keccak witnesses item.epoch item.bloom with
    | .error e => (st, some e)
    | .ok _ =>
      blooms_receive keccak witnesses
        { verified := ainsert st.verified item.epoch item.bloom,
          in_flight := st.in_flight.filter (fun x => x != item.epoch) } rest

/-- Source: `Receipts::receive` — the same shape over receipt lists. -/
def receipts_receive (computeRoot : List (List Receipt) → Nat)
    (witnesses : Nat → Option (Nat × Nat × Nat)) (st : ReceiptsState) :
    List ReceiptsWithEpoch → ReceiptsState × Option LightError
  | [] => (st, none)
  | item :: rest =>
    match validate_receipts computeRoot witnesses item.epoch item.receipts with
    | .error e => (st, some e)
    | .ok _ =>
      receipts_receive computeRoot witnesses
        { verified := ainsert st.verified item.epoch item.receipts,
          in_flight := st.in_flight.filter (fun x => x != item.epoch) } rest

/-- Claim C8: for every received bloom or receipts entry, when the local
witness for its epoch is absent `receive` stops with an InternalError, and
when the witness is present but the hash of the received bloom
(respectively the computed receipts root) differs from the witness value it
stops with an InvalidBloom error; in both failure cases the state — in
particular the verified cache — is unchanged, so the entry is not
inserted. -/
theorem light_sync_validation (keccak : Nat → Nat)
    (computeRoot : List (List Receipt) → Nat)
    (witnesses : Nat → Option (Nat × Nat × Nat)) (st : BloomsState)
    (str : ReceiptsState) (e b : Nat) (rsl : List (List Receipt))
    (restB : List BloomWithEpoch) (restR : List ReceiptsWithEpoch) :
    (witnesses e = none →
      blooms_receive keccak witnesses st (⟨e, b⟩ :: restB)
        = (st, some .InternalError)
      ∧ receipts_receive computeRoot witnesses str (⟨e, rsl⟩ :: restR)
        = (str, some .InternalError))
    ∧ (∀ sr rr bh, witnesses e = some (sr, rr, bh) →
      (keccak b ≠ bh →
        blooms_receive keccak witnesses st (⟨e, b⟩ :: restB)
          = (st, some .InvalidBloom))
      ∧ (computeRoot rsl ≠ rr →
        receipts_receive computeRoot witnesses str (⟨e, rsl⟩ :: restR)
          = (str, some .InvalidBloom))) := by
  constructor
  · intro hw
    constructor
    · rw [blooms_receive, validate_bloom]
      simp only [hw]
    · rw [receipts_receive, validate_receipts]
      simp only [hw]
  · intro sr rr bh hw
    constructor
    · intro hneq
      have hb : (keccak b != bh) = true := by simpa using hneq
      rw [blooms_receive, validate_bloom]
      simp only [hw, hb, if_true]
    · intro hneq
      have hb : (computeRoot rsl != rr) = true := by simpa using hneq
      rw [receipts_receive, validate_receipts]
      simp only [hw, hb, if_true]

/-- Claim C8 witness: the validation outcomes evaluated with a concrete hash
function (successor), an empty witness table for the first part, and a
mismatching witness for the second. -/
theorem light_sync_validation_witness :
    (blooms_receive (fun b => b + 1) (fun _ => none) (BloomsState.mk [] [])
        [⟨4, 1⟩] = (BloomsState.mk [] [], some .InternalError)
      ∧ receipts_receive (fun _ => 0) (fun _ => none) (ReceiptsState.mk [] [])
        [⟨4, []⟩] = (ReceiptsState.mk [] [], some .InternalError))
    ∧ (blooms_receive (fun b => b + 1) (fun _ => some (0, 0, 5))
        (BloomsState.mk [] []) [⟨4, 1⟩]
        = (BloomsState.mk [] [], some .InvalidBloom)
      ∧ receipts_receive (fun _ => 7) (fun _ => some (0, 0, 5))
        (ReceiptsState.mk [] []) [⟨4, []⟩]
        = (ReceiptsState.mk [] [], some .InvalidBloom)) :=
  ⟨(light_sync_validation (fun b => b + 1) (fun _ => 0) (fun _ => none)
      (BloomsState.mk [] []) (ReceiptsState.mk [] []) 4 1 [] [] []).1 rfl,
    ⟨((light_sync_validation (fun b => b + 1) (fun _ => 7) (fun _ => some (0, 0, 5))
        (BloomsState.mk [] []) (ReceiptsState.mk [] []) 4 1 [] [] []).2
        0 0 5 rfl).1 (by decide),
      ((light_sync_validation (fun b => b + 1) (fun _ => 7) (fun _ => some (0, 0, 5))
        (BloomsState.mk [] []) (ReceiptsState.mk [] []) 4 1 [] [] []).2
        0 0 5 rfl).2 (by decide)⟩⟩
